import Mathlib

/-!
Verification of the procedural-planet terrain pipeline
(`oukette/procedural_planet_ue`) against its specification.

The development shallowly embeds the relevant C++ sources:
machine `uint64` arithmetic is modelled as `Nat` reduced modulo `2 ^ 64`,
`float`/`FVector` arithmetic is idealised over `ℚ` where only field
operations occur and over `ℝ` where square roots occur, `TArray` becomes
`List`, and object state becomes explicit records.  Each definition is
named after the source symbol it embeds.
-/

set_option maxHeartbeats 1000000

/-- Three-component vector, modelling `FVector` componentwise over a scalar
type (`ℚ` or `ℝ` depending on whether square roots are involved). -/
structure V3 (α : Type) where
  x : α
  y : α
  z : α
deriving DecidableEq, Repr

namespace V3

variable {α : Type}

instance [Add α] : Add (V3 α) := ⟨fun a b => ⟨a.x + b.x, a.y + b.y, a.z + b.z⟩⟩

instance [Sub α] : Sub (V3 α) := ⟨fun a b => ⟨a.x - b.x, a.y - b.y, a.z - b.z⟩⟩

instance [Neg α] : Neg (V3 α) := ⟨fun a => ⟨-a.x, -a.y, -a.z⟩⟩

instance [Mul α] : SMul α (V3 α) := ⟨fun s a => ⟨s * a.x, s * a.y, s * a.z⟩⟩

instance [Zero α] : Zero (V3 α) := ⟨⟨0, 0, 0⟩⟩

@[simp] theorem add_def [Add α] (a b : V3 α) :
    a + b = ⟨a.x + b.x, a.y + b.y, a.z + b.z⟩ := rfl

@[simp] theorem sub_def [Sub α] (a b : V3 α) :
    a - b = ⟨a.x - b.x, a.y - b.y, a.z - b.z⟩ := rfl

@[simp] theorem smul_def [Mul α] (s : α) (a : V3 α) :
    s • a = ⟨s * a.x, s * a.y, s * a.z⟩ := rfl

@[simp] theorem zero_def [Zero α] : (0 : V3 α) = ⟨0, 0, 0⟩ := rfl

/-- Dot product of two vectors (`FVector::DotProduct`). -/
def dot [Add α] [Mul α] (a b : V3 α) : α := a.x * b.x + a.y * b.y + a.z * b.z

/-- Squared length (`FVector::SizeSquared`). -/
def sizeSq [Add α] [Mul α] (a : V3 α) : α := a.x * a.x + a.y * a.y + a.z * a.z

/-- Squared distance between two points (`FVector::DistSquared`). -/
def distSquared [Add α] [Sub α] [Mul α] (a b : V3 α) : α := sizeSq (a - b)

end V3

/-- Length of a real vector (`FVector::Size`), idealising `sqrtf`. -/
noncomputable def V3.size (a : V3 ℝ) : ℝ := Real.sqrt a.sizeSq

/- ======================================================================
C1 — chunk lifecycle state machine
(`ChunkState.h` / `Chunk.h`)
====================================================================== -/

/-- Lifecycle state of a chunk (`EChunkState`). -/
inductive EChunkState where
  | Unloaded
  | Requested
  | Generating
  | Ready
  | Visible
  | Unloading
deriving DecidableEq, Repr, Fintype

/-- Transition validity table (`IsValidStateTransition`, ChunkMeshData.h
concatenation / ChunkState.h, lines 84-110). -/
def isValidStateTransition : EChunkState → EChunkState → Bool
  | .Unloaded, To => To == .Requested
  | .Requested, To => To == .Generating || To == .Unloaded
  | .Generating, To => To == .Ready || To == .Unloaded
  | .Ready, To => To == .Visible || To == .Unloading
  | .Visible, To => To == .Unloading
  | .Unloading, To => To == .Unloaded

/-- State update performed by `FChunk::TransitionToState` (Chunk.h, lines
142-154): the new value of the `State` field.  An invalid transition only
logs an error and returns, leaving the state unchanged. -/
def transitionToState (State NewState : EChunkState) : EChunkState :=
  if isValidStateTransition State NewState then NewState else State

/-- The nine transitions the specification enumerates as permitted. -/
def allowedTransitions : List (EChunkState × EChunkState) :=
  [(.Unloaded, .Requested),
   (.Requested, .Generating), (.Requested, .Unloaded),
   (.Generating, .Ready), (.Generating, .Unloaded),
   (.Ready, .Visible), (.Ready, .Unloading),
   (.Visible, .Unloading),
   (.Unloading, .Unloaded)]

/-- C1: `FChunk::TransitionToState(To)` sets `State` to `To` exactly when the
pair (current state, `To`) is one of the nine permitted transitions of the
spec table, and is a no-op leaving `State` unchanged for every other pair;
the code predicate `IsValidStateTransition` accepts exactly those nine
pairs. -/
theorem c1_transition_table :
    ∀ s t : EChunkState,
      (isValidStateTransition s t = true ↔ (s, t) ∈ allowedTransitions) ∧
      transitionToState s t = (if (s, t) ∈ allowedTransitions then t else s) := by
  decide

/- ======================================================================
C8 — deterministic 64-bit seed hashing (`SeedUtils.cpp`)
====================================================================== -/

namespace FSeedUtils

/-- Modulus of `uint64` arithmetic. -/
def M64 : ℕ := 2 ^ 64

/-- PCG-style 64-bit mix (`FSeedUtils::PCG_Hash`).  The input is reduced
modulo `2 ^ 64` exactly as a `uint64` argument would be. -/
def PCG_Hash (X : ℕ) : ℕ :=
  let State : ℕ := ((X % M64) * 6364136223846793005 + 1442695040888963407) % M64
  let Word : ℕ := (((State >>> ((State >>> 59) + 5)) ^^^ State) * 12605985483714917081) % M64
  (Word >>> 43) ^^^ Word

/-- Default 64-bit hash (`FSeedUtils::Hash64`), which forwards to PCG. -/
def Hash64 (X : ℕ) : ℕ := PCG_Hash X

/-- Binary seed combination (`FSeedUtils::CombineSeeds(uint64, uint64)`). -/
def CombineSeeds (SeedA SeedB : ℕ) : ℕ := Hash64 (SeedA ^^^ Hash64 SeedB)

/-- Array seed combination (`FSeedUtils::CombineSeeds(const TArray&)`): the
result starts at `Seeds[0]` and folds the remaining entries left to right;
an empty array gives 0. -/
def CombineSeedsList : List ℕ → ℕ
  | [] => 0
  | s :: rest => rest.foldl CombineSeeds s

/-- Chunk seed derivation (`FSeedUtils::GetChunkSeed`): the planet seed is
combined with face, LOD, chunk X and chunk Y in order, then hashed once
more. -/
def GetChunkSeed (PlanetSeed CubeFace LOD ChunkX ChunkY : ℕ) : ℕ :=
  Hash64 (CombineSeeds (CombineSeeds (CombineSeeds (CombineSeeds PlanetSeed CubeFace) LOD) ChunkX) ChunkY)

end FSeedUtils

/-- C8: `CombineSeeds(a, b) = Hash64(a XOR Hash64(b))`; the n-ary
`CombineSeeds` folds the array left to right with the binary operation and
returns 0 on an empty array; and `GetChunkSeed(planetSeed, face, lod, x, y)`
equals the left-to-right combination of the planet seed with the four chunk
fields followed by one final `Hash64`. -/
theorem c8_seed_combination :
    ∀ a b ps f l cx cy : ℕ,
      FSeedUtils.CombineSeeds a b = FSeedUtils.Hash64 (a ^^^ FSeedUtils.Hash64 b) ∧
      FSeedUtils.CombineSeedsList [] = 0 ∧
      (∀ (s : ℕ) (rest : List ℕ),
        FSeedUtils.CombineSeedsList (s :: rest) = rest.foldl FSeedUtils.CombineSeeds s) ∧
      FSeedUtils.GetChunkSeed ps f l cx cy =
        FSeedUtils.Hash64 (FSeedUtils.CombineSeedsList [ps, f, l, cx, cy]) := by
  intro a b ps f l cx cy
  refine ⟨rfl, rfl, fun s rest => rfl, ?_⟩
  unfold FSeedUtils.GetChunkSeed
  rw [FSeedUtils.CombineSeedsList]
  rw [List.foldl_cons, List.foldl_cons, List.foldl_cons, List.foldl_cons, List.foldl_nil]

/- ======================================================================
Shared coordinate-math embedding (`MathUtils.cpp`), generic over the
scalar field so that the rational and real parts of the development share
one set of definitions.
====================================================================== -/

section PlanetMath

variable {α : Type} [LinearOrderedField α]

/-- Face normal table (`FPlanetMath::CubeFaceNormals`). -/
def cubeFaceNormals : Fin 6 → V3 α
  | 0 => ⟨1, 0, 0⟩
  | 1 => ⟨-1, 0, 0⟩
  | 2 => ⟨0, 1, 0⟩
  | 3 => ⟨0, -1, 0⟩
  | 4 => ⟨0, 0, 1⟩
  | 5 => ⟨0, 0, -1⟩

/-- Face tangent table (`FPlanetMath::CubeFaceTangents`). -/
def cubeFaceTangents : Fin 6 → V3 α
  | 0 => ⟨0, 0, -1⟩
  | 1 => ⟨0, 0, 1⟩
  | 2 => ⟨1, 0, 0⟩
  | 3 => ⟨1, 0, 0⟩
  | 4 => ⟨1, 0, 0⟩
  | 5 => ⟨-1, 0, 0⟩

/-- Face bitangent table (`FPlanetMath::CubeFaceBitangents`). -/
def cubeFaceBitangents : Fin 6 → V3 α
  | 0 => ⟨0, 1, 0⟩
  | 1 => ⟨0, 1, 0⟩
  | 2 => ⟨0, 0, 1⟩
  | 3 => ⟨0, 0, -1⟩
  | 4 => ⟨0, 1, 0⟩
  | 5 => ⟨0, 1, 0⟩

/-- Dominant-face selection (`FPlanetMath::GetDominantFace`): the axis with
the largest absolute component wins, ties resolving X before Y before Z, and
the sign of that component picks the positive or negative face. -/
def getDominantFace (v : V3 α) : Fin 6 :=
  if |v.y| ≤ |v.x| ∧ |v.z| ≤ |v.x| then (if 0 ≤ v.x then 0 else 1)
  else if |v.z| ≤ |v.y| then (if 0 ≤ v.y then 2 else 3)
  else if 0 ≤ v.z then 4 else 5

/-- Componentwise clamp (`FMath::Clamp`), modelled on its conditional form:
values below the minimum give the minimum, values below the maximum pass
through, everything else gives the maximum. -/
def clamp (X Min Max : α) : α :=
  if X < Min then Min else if X < Max then X else Max

end PlanetMath

/- ======================================================================
C10 — mesh bounds (`ChunkMeshData.cpp` / `Chunk.h` / `ChunkTransform.cpp`)
====================================================================== -/

/-- Largest finite value of a 32-bit float (`FLT_MAX`), as the exact
rational (2^24 - 1) * 2^104. -/
def fltMax : ℚ := (2 ^ 24 - 1) * 2 ^ 104

/-- Plain aggregate of generated mesh data (`FChunkMeshData`).  `FColor`
vertex colors do not appear in this variant; UV pairs model `FVector2D`. -/
structure FChunkMeshData where
  Vertices : List (V3 ℚ)
  Normals : List (V3 ℚ)
  UVs : List (ℚ × ℚ)
  Tangents : List (V3 ℚ)
  Triangles : List ℤ
  BoundsMin : V3 ℚ
  BoundsMax : V3 ℚ

/-- Accumulation step of the bounds loop in
`FChunkMeshData::CalculateBounds`: one vertex widens the running
(min, max) pair componentwise. -/
def boundsStep (acc : V3 ℚ × V3 ℚ) (v : V3 ℚ) : V3 ℚ × V3 ℚ :=
  (⟨min acc.1.x v.x, min acc.1.y v.y, min acc.1.z v.z⟩,
   ⟨max acc.2.x v.x, max acc.2.y v.y, max acc.2.z v.z⟩)

/-- Bounds computation (`FChunkMeshData::CalculateBounds`, lines 17-38): an
empty vertex array zeroes both bounds; otherwise the loop folds min/max over
all vertices starting from (+FLT_MAX, -FLT_MAX). -/
def calculateBounds (m : FChunkMeshData) : FChunkMeshData :=
  if m.Vertices.length = 0 then
    { m with BoundsMin := ⟨0, 0, 0⟩, BoundsMax := ⟨0, 0, 0⟩ }
  else
    let bounds := m.Vertices.foldl boundsStep
      (⟨fltMax, fltMax, fltMax⟩, ⟨-fltMax, -fltMax, -fltMax⟩)
    { m with BoundsMin := bounds.1, BoundsMax := bounds.2 }

/-- Immutable chunk transform data (`FChunkTransform`). -/
structure FChunkTransform where
  WorldOrigin : V3 ℚ
  CubeNormal : V3 ℚ
  ChunkWorldSize : ℚ
  LOD : ℤ

/-- Transform-derived world bounds (`FChunkTransform::GetWorldBounds`,
ChunkTransform.cpp lines 81-115): min/max over the four tangent-plane
corners at half the chunk size, widened by a 5% terrain margin. -/
def chunkTransformWorldBounds (t : FChunkTransform) : V3 ℚ × V3 ℚ :=
  let HalfSize := t.ChunkWorldSize * (1 / 2)
  let Face := getDominantFace t.CubeNormal
  let Tangent : V3 ℚ := cubeFaceTangents Face
  let Bitangent : V3 ℚ := cubeFaceBitangents Face
  let Corners : List (V3 ℚ) :=
    [t.WorldOrigin + HalfSize • Tangent + HalfSize • Bitangent,
     t.WorldOrigin + HalfSize • Tangent - HalfSize • Bitangent,
     t.WorldOrigin - HalfSize • Tangent + HalfSize • Bitangent,
     t.WorldOrigin - HalfSize • Tangent - HalfSize • Bitangent]
  let bounds := Corners.foldl boundsStep
    (⟨fltMax, fltMax, fltMax⟩, ⟨-fltMax, -fltMax, -fltMax⟩)
  let TerrainMargin := t.ChunkWorldSize * (5 / 100)
  (bounds.1 - ⟨TerrainMargin, TerrainMargin, TerrainMargin⟩,
   bounds.2 + ⟨TerrainMargin, TerrainMargin, TerrainMargin⟩)

/-- Core chunk entity (`FChunk`): the fields that the bounds query reads.
The render-proxy weak pointer is modelled as presence only. -/
structure FChunk where
  State : EChunkState
  GenerationId : ℕ
  Transform : FChunkTransform
  MeshData : Option FChunkMeshData
  HasRenderProxy : Bool

/-- World bounds of a chunk (`FChunk::GetWorldBounds`, Chunk.h lines 80-93):
mesh bounds when mesh data exists with at least one vertex, else the
transform-derived bounds. -/
def chunkGetWorldBounds (c : FChunk) : V3 ℚ × V3 ℚ :=
  match c.MeshData with
  | some m =>
      if 0 < m.Vertices.length then (m.BoundsMin, m.BoundsMax)
      else chunkTransformWorldBounds c.Transform
  | none => chunkTransformWorldBounds c.Transform

/-- Folding min of a projection only ever lowers the accumulator. -/
theorem foldl_minBy_le_init {β : Type} (f : β → ℚ) :
    ∀ (l : List β) (a : ℚ), l.foldl (fun acc b => min acc (f b)) a ≤ a := by
  intro l
  induction l with
  | nil => intro a; simp
  | cons w t ih =>
      intro a
      simpa using le_trans (ih (min a (f w))) (min_le_left _ _)

/-- The min fold is a lower bound for every projected list entry. -/
theorem foldl_minBy_le_mem {β : Type} (f : β → ℚ) :
    ∀ (l : List β) (a : ℚ) (b : β), b ∈ l →
      l.foldl (fun acc e => min acc (f e)) a ≤ f b := by
  intro l
  induction l with
  | nil => intro a b hb; cases hb
  | cons w t ih =>
      intro a b hb
      rcases List.mem_cons.mp hb with hb | hb
      · subst hb
        simpa using le_trans (foldl_minBy_le_init f t (min a (f b))) (min_le_right _ _)
      · simpa using ih (min a (f w)) b hb

/-- The min fold yields the start value or a projected list entry. -/
theorem foldl_minBy_choice {β : Type} (f : β → ℚ) :
    ∀ (l : List β) (a : ℚ),
      l.foldl (fun acc e => min acc (f e)) a = a ∨
      l.foldl (fun acc e => min acc (f e)) a ∈ l.map f := by
  intro l
  induction l with
  | nil => intro a; left; rfl
  | cons w t ih =>
      intro a
      rcases ih (min a (f w)) with h | h
      · rcases min_choice a (f w) with hm | hm
        · left; simpa [hm] using h
        · right; simp only [List.foldl_cons, List.map_cons, List.mem_cons]
          left; rw [h, hm]
      · right
        simp only [List.foldl_cons, List.map_cons, List.mem_cons]
        right; simpa using h

/-- Folding max of a projection only ever raises the accumulator. -/
theorem foldl_maxBy_le_init {β : Type} (f : β → ℚ) :
    ∀ (l : List β) (a : ℚ), a ≤ l.foldl (fun acc b => max acc (f b)) a := by
  intro l
  induction l with
  | nil => intro a; simp
  | cons w t ih =>
      intro a
      simpa using le_trans (le_max_left a (f w)) (ih (max a (f w)))

/-- The max fold is an upper bound for every projected list entry. -/
theorem foldl_maxBy_le_mem {β : Type} (f : β → ℚ) :
    ∀ (l : List β) (a : ℚ) (b : β), b ∈ l →
      f b ≤ l.foldl (fun acc e => max acc (f e)) a := by
  intro l
  induction l with
  | nil => intro a b hb; cases hb
  | cons w t ih =>
      intro a b hb
      rcases List.mem_cons.mp hb with hb | hb
      · subst hb
        simpa using le_trans (le_max_right a (f b)) (foldl_maxBy_le_init f t (max a (f b)))
      · simpa using ih (max a (f w)) b hb

/-- The max fold yields the start value or a projected list entry. -/
theorem foldl_maxBy_choice {β : Type} (f : β → ℚ) :
    ∀ (l : List β) (a : ℚ),
      l.foldl (fun acc e => max acc (f e)) a = a ∨
      l.foldl (fun acc e => max acc (f e)) a ∈ l.map f := by
  intro l
  induction l with
  | nil => intro a; left; rfl
  | cons w t ih =>
      intro a
      rcases ih (max a (f w)) with h | h
      · rcases max_choice a (f w) with hm | hm
        · left; simpa [hm] using h
        · right; simp only [List.foldl_cons, List.map_cons, List.mem_cons]
          left; rw [h, hm]
      · right
        simp only [List.foldl_cons, List.map_cons, List.mem_cons]
        right; simpa using h

/-- The bounds fold splits into six independent scalar folds. -/
theorem foldl_boundsStep_eq :
    ∀ (l : List (V3 ℚ)) (acc : V3 ℚ × V3 ℚ),
      l.foldl boundsStep acc =
        (⟨l.foldl (fun a v => min a (V3.x v)) acc.1.x,
          l.foldl (fun a v => min a (V3.y v)) acc.1.y,
          l.foldl (fun a v => min a (V3.z v)) acc.1.z⟩,
         ⟨l.foldl (fun a v => max a (V3.x v)) acc.2.x,
          l.foldl (fun a v => max a (V3.y v)) acc.2.y,
          l.foldl (fun a v => max a (V3.z v)) acc.2.z⟩) := by
  intro l
  induction l with
  | nil => intro acc; rfl
  | cons w t ih =>
      intro acc
      simp only [List.foldl_cons]
      rw [ih]
      rfl

/-- The min fold started at a value dominating the whole projected list
gives the exact list minimum: it bounds every entry and is attained. -/
theorem foldl_minBy_spec {β : Type} (f : β → ℚ) (l : List β) (a : ℚ)
    (hb : ∀ b ∈ l, f b ≤ a) (hne : l ≠ []) :
    (∀ b ∈ l, l.foldl (fun acc e => min acc (f e)) a ≤ f b) ∧
    l.foldl (fun acc e => min acc (f e)) a ∈ l.map f := by
  refine ⟨fun b hbmem => foldl_minBy_le_mem f l a b hbmem, ?_⟩
  rcases foldl_minBy_choice f l a with h | h
  · rcases List.exists_mem_of_ne_nil l hne with ⟨b0, hb0⟩
    have h1 : l.foldl (fun acc e => min acc (f e)) a ≤ f b0 :=
      foldl_minBy_le_mem f l a b0 hb0
    have h2 : f b0 = a := le_antisymm (hb b0 hb0) (h ▸ h1)
    rw [h, ← h2]
    exact List.mem_map_of_mem f hb0
  · exact h

/-- The max fold started at a value dominated by the whole projected list
gives the exact list maximum: it dominates every entry and is attained. -/
theorem foldl_maxBy_spec {β : Type} (f : β → ℚ) (l : List β) (a : ℚ)
    (hb : ∀ b ∈ l, a ≤ f b) (hne : l ≠ []) :
    (∀ b ∈ l, f b ≤ l.foldl (fun acc e => max acc (f e)) a) ∧
    l.foldl (fun acc e => max acc (f e)) a ∈ l.map f := by
  refine ⟨fun b hbmem => foldl_maxBy_le_mem f l a b hbmem, ?_⟩
  rcases foldl_maxBy_choice f l a with h | h
  · rcases List.exists_mem_of_ne_nil l hne with ⟨b0, hb0⟩
    have h1 : f b0 ≤ l.foldl (fun acc e => max acc (f e)) a :=
      foldl_maxBy_le_mem f l a b0 hb0
    have h2 : f b0 = a := le_antisymm (h ▸ h1) (hb b0 hb0)
    rw [h, ← h2]
    exact List.mem_map_of_mem f hb0
  · exact h

/-- C10: `FChunkMeshData::CalculateBounds` zeroes both bounds for an empty
vertex array and otherwise sets BoundsMin/BoundsMax to the componentwise
minimum and maximum over all vertices (every vertex lies between them and
each bound component is attained by some vertex); `FChunk::GetWorldBounds`
returns exactly the mesh bounds when mesh data is present with at least one
vertex, and the transform-derived bounds otherwise. -/
theorem c10_mesh_bounds :
    ∀ (m : FChunkMeshData) (c : FChunk),
      (m.Vertices = [] →
        (calculateBounds m).BoundsMin = ⟨0, 0, 0⟩ ∧
        (calculateBounds m).BoundsMax = ⟨0, 0, 0⟩) ∧
      ((∀ v ∈ m.Vertices, |v.x| ≤ fltMax ∧ |v.y| ≤ fltMax ∧ |v.z| ≤ fltMax) →
        m.Vertices ≠ [] →
        (∀ v ∈ m.Vertices,
          (calculateBounds m).BoundsMin.x ≤ v.x ∧
          (calculateBounds m).BoundsMin.y ≤ v.y ∧
          (calculateBounds m).BoundsMin.z ≤ v.z ∧
          v.x ≤ (calculateBounds m).BoundsMax.x ∧
          v.y ≤ (calculateBounds m).BoundsMax.y ∧
          v.z ≤ (calculateBounds m).BoundsMax.z) ∧
        ((calculateBounds m).BoundsMin.x ∈ m.Vertices.map V3.x ∧
         (calculateBounds m).BoundsMin.y ∈ m.Vertices.map V3.y ∧
         (calculateBounds m).BoundsMin.z ∈ m.Vertices.map V3.z ∧
         (calculateBounds m).BoundsMax.x ∈ m.Vertices.map V3.x ∧
         (calculateBounds m).BoundsMax.y ∈ m.Vertices.map V3.y ∧
         (calculateBounds m).BoundsMax.z ∈ m.Vertices.map V3.z)) ∧
      (∀ md, c.MeshData = some md → 0 < md.Vertices.length →
        chunkGetWorldBounds c = (md.BoundsMin, md.BoundsMax)) ∧
      ((c.MeshData = none ∨ ∃ md, c.MeshData = some md ∧ md.Vertices.length = 0) →
        chunkGetWorldBounds c = chunkTransformWorldBounds c.Transform) := by
  intro m c
  refine ⟨?_, ?_, ?_, ?_⟩
  · intro h
    simp [calculateBounds, h]
  · intro hb hne
    have hlen : ¬ (m.Vertices.length = 0) := fun hh => hne (List.length_eq_zero.mp hh)
    have hminx := foldl_minBy_spec V3.x m.Vertices fltMax
      (fun b hbm => (abs_le.mp (hb b hbm).1).2) hne
    have hminy := foldl_minBy_spec V3.y m.Vertices fltMax
      (fun b hbm => (abs_le.mp (hb b hbm).2.1).2) hne
    have hminz := foldl_minBy_spec V3.z m.Vertices fltMax
      (fun b hbm => (abs_le.mp (hb b hbm).2.2).2) hne
    have hmaxx := foldl_maxBy_spec V3.x m.Vertices (-fltMax)
      (fun b hbm => (abs_le.mp (hb b hbm).1).1) hne
    have hmaxy := foldl_maxBy_spec V3.y m.Vertices (-fltMax)
      (fun b hbm => (abs_le.mp (hb b hbm).2.1).1) hne
    have hmaxz := foldl_maxBy_spec V3.z m.Vertices (-fltMax)
      (fun b hbm => (abs_le.mp (hb b hbm).2.2).1) hne
    simp only [calculateBounds, if_neg hlen, foldl_boundsStep_eq]
    exact ⟨fun v hv => ⟨(hminx.1 v hv), (hminy.1 v hv), (hminz.1 v hv),
        (hmaxx.1 v hv), (hmaxy.1 v hv), (hmaxz.1 v hv)⟩,
      hminx.2, hminy.2, hminz.2, hmaxx.2, hmaxy.2, hmaxz.2⟩
  · intro md hmd hpos
    simp [chunkGetWorldBounds, hmd, hpos]
  · rintro (h | ⟨md, hmd, hlen0⟩)
    · simp [chunkGetWorldBounds, h]
    · simp [chunkGetWorldBounds, hmd, hlen0]

/-- Concrete one-vertex mesh used to exercise the bounds theorem. -/
def exampleMesh : FChunkMeshData :=
  { Vertices := [⟨2, -3, 5⟩]
    Normals := [⟨0, 0, 1⟩]
    UVs := [(0, 0)]
    Tangents := []
    Triangles := [0, 0, 0]
    BoundsMin := ⟨0, 0, 0⟩
    BoundsMax := ⟨0, 0, 0⟩ }

/-- Concrete chunk with no mesh data, exercising the fallback branch of the
bounds query. -/
def exampleChunk : FChunk :=
  { State := .Unloaded
    GenerationId := 0
    Transform :=
      { WorldOrigin := ⟨0, 0, 0⟩
        CubeNormal := ⟨1, 0, 0⟩
        ChunkWorldSize := 100
        LOD := 0 }
    MeshData := none
    HasRenderProxy := false }

/-- Witness for C10 at a concrete mesh and chunk. -/
theorem c10_mesh_bounds_witness :
    ((calculateBounds exampleMesh).BoundsMin.x ≤ 2 ∧
     (calculateBounds exampleMesh).BoundsMin.y ≤ -3 ∧
     (-3 : ℚ) ≤ (calculateBounds exampleMesh).BoundsMax.y) ∧
    chunkGetWorldBounds exampleChunk =
      chunkTransformWorldBounds exampleChunk.Transform := by
  have h := c10_mesh_bounds exampleMesh exampleChunk
  have hb : ∀ v ∈ exampleMesh.Vertices,
      |v.x| ≤ fltMax ∧ |v.y| ≤ fltMax ∧ |v.z| ≤ fltMax := by
    intro v hv
    simp only [exampleMesh, List.mem_singleton] at hv
    subst hv
    norm_num [fltMax]
  have hne : exampleMesh.Vertices ≠ [] := by simp [exampleMesh]
  have hmem : (⟨2, -3, 5⟩ : V3 ℚ) ∈ exampleMesh.Vertices := by simp [exampleMesh]
  have h2 := (h.2.1 hb hne).1 _ hmem
  exact ⟨⟨h2.1, h2.2.1, h2.2.2.2.2.1⟩, h.2.2.2 (Or.inl rfl)⟩

/- ======================================================================
C6 — Marching Cubes edge-vertex interpolation
(`MarchingCubes.cpp` concatenated into DensityGenerator.h, lines 415-437,
and `VoxelChunk.cpp`, lines 172-182)
====================================================================== -/

namespace FMarchingCubes

/-- Edge-vertex interpolation (`FMarchingCubes::VertexInterpolation`):
same-strict-side corners give the midpoint, a corner density within 1e-5 of
the iso level returns that corner, otherwise t = (iso - V1)/(V2 - V1) is
clamped to [0, 1].  Float literals 0.5f and 0.00001f are idealised as exact
rationals. -/
def VertexInterpolation (P1 P2 : V3 ℚ) (V1 V2 IsoLevel : ℚ) : V3 ℚ :=
  if (V1 < IsoLevel ∧ V2 < IsoLevel) ∨ (IsoLevel < V1 ∧ IsoLevel < V2) then
    (1 / 2 : ℚ) • (P1 + P2)
  else if |IsoLevel - V1| < 1 / 100000 then P1
  else if |IsoLevel - V2| < 1 / 100000 then P2
  else
    P1 + clamp ((IsoLevel - V1) / (V2 - V1)) 0 1 • (P2 - P1)

end FMarchingCubes

namespace AVoxelChunk

/-- Edge-vertex interpolation of the CubeSpherePlanet pipeline
(`AVoxelChunk::VertexInterp`, implicit iso level 0): a denominator below
1e-6 in magnitude gives the midpoint, otherwise t = D1/(D1 - D2) is used
without clamping. -/
def VertexInterp (P1 P2 : V3 ℚ) (D1 D2 : ℚ) : V3 ℚ :=
  let Denom := D1 - D2
  if |Denom| < 1 / 1000000 then (1 / 2 : ℚ) • (P1 + P2)
  else P1 + (D1 / Denom) • (P2 - P1)

end AVoxelChunk

/-- Membership of a point on the closed segment between two points. -/
def onSegment (p1 p2 q : V3 ℚ) : Prop :=
  ∃ t : ℚ, 0 ≤ t ∧ t ≤ 1 ∧ q = p1 + t • (p2 - p1)

/-- Counterexample to C6: `AVoxelChunk::VertexInterp` with corner densities
D1 = 2, D2 = 1 (same side of the implicit iso level 0, denominator far from
zero) computes the unclamped parameter t = 2 and returns a point outside
the segment between P1 = (0,0,0) and P2 = (1,0,0); it is neither on the
segment nor the midpoint the claim prescribes for the guarded case. -/
theorem c6_counterexample :
    AVoxelChunk.VertexInterp ⟨0, 0, 0⟩ ⟨1, 0, 0⟩ 2 1 = ⟨2, 0, 0⟩ ∧
    ¬ onSegment ⟨0, 0, 0⟩ ⟨1, 0, 0⟩ (AVoxelChunk.VertexInterp ⟨0, 0, 0⟩ ⟨1, 0, 0⟩ 2 1) := by
  have heval : AVoxelChunk.VertexInterp ⟨0, 0, 0⟩ ⟨1, 0, 0⟩ 2 1 = ⟨2, 0, 0⟩ := by
    norm_num [AVoxelChunk.VertexInterp]
  refine ⟨heval, ?_⟩
  rw [heval]
  rintro ⟨t, ht0, ht1, heq⟩
  have hx := congrArg V3.x heq
  simp at hx
  subst hx
  norm_num at ht1

/-- C6 (amended): `FMarchingCubes::VertexInterpolation` always returns a
point on the segment between P1 and P2; when both corner densities agree it
returns the midpoint unless both equal the iso level, in which case the
near-iso guard returns P1; whenever its division branch is reached the
denominator magnitude is at least 2e-5, so no near-zero division occurs.
`AVoxelChunk::VertexInterp` returns the midpoint whenever |D1 - D2| < 1e-6
(in particular whenever D1 = D2), so it never divides by a near-zero
denominator, but it does not clamp t and its result can leave the
segment. -/
theorem c6_amended :
    ∀ (P1 P2 : V3 ℚ) (V1 V2 IsoLevel D1 D2 : ℚ),
      onSegment P1 P2 (FMarchingCubes.VertexInterpolation P1 P2 V1 V2 IsoLevel) ∧
      (V1 = V2 → V1 ≠ IsoLevel →
        FMarchingCubes.VertexInterpolation P1 P2 V1 V2 IsoLevel =
          (1 / 2 : ℚ) • (P1 + P2)) ∧
      (V1 = V2 → V1 = IsoLevel →
        FMarchingCubes.VertexInterpolation P1 P2 V1 V2 IsoLevel = P1) ∧
      (¬ ((V1 < IsoLevel ∧ V2 < IsoLevel) ∨ (IsoLevel < V1 ∧ IsoLevel < V2)) →
        ¬ (|IsoLevel - V1| < 1 / 100000) → ¬ (|IsoLevel - V2| < 1 / 100000) →
        1 / 50000 ≤ |V2 - V1|) ∧
      (|D1 - D2| < 1 / 1000000 →
        AVoxelChunk.VertexInterp P1 P2 D1 D2 = (1 / 2 : ℚ) • (P1 + P2)) := by
  intro P1 P2 V1 V2 IsoLevel D1 D2
  refine ⟨?_, ?_, ?_, ?_, ?_⟩
  · unfold FMarchingCubes.VertexInterpolation
    split_ifs with h1 h2 h3
    · exact ⟨1 / 2, by norm_num, by norm_num, by
        cases P1; cases P2
        simp only [V3.add_def, V3.sub_def, V3.smul_def, V3.mk.injEq]
        refine ⟨by ring, by ring, by ring⟩⟩
    · exact ⟨0, le_refl 0, by norm_num, by cases P1; cases P2; simp⟩
    · exact ⟨1, by norm_num, le_refl 1, by cases P1; cases P2; simp⟩
    · refine ⟨clamp ((IsoLevel - V1) / (V2 - V1)) 0 1, ?_, ?_, rfl⟩
      · unfold clamp
        split_ifs with hc1 hc2
        · exact le_refl 0
        · exact le_of_not_lt hc1
        · exact zero_le_one
      · unfold clamp
        split_ifs with hc1 hc2
        · exact zero_le_one
        · exact le_of_lt hc2
        · exact le_refl 1
  · intro heq hne
    unfold FMarchingCubes.VertexInterpolation
    subst heq
    rcases lt_or_gt_of_ne hne with h | h
    · rw [if_pos (Or.inl ⟨h, h⟩)]
    · rw [if_pos (Or.inr ⟨h, h⟩)]
  · intro heq hiso
    unfold FMarchingCubes.VertexInterpolation
    subst heq
    subst hiso
    have hno : ¬ ((V1 < V1 ∧ V1 < V1) ∨ (V1 < V1 ∧ V1 < V1)) := by
      rintro (⟨h, _⟩ | ⟨h, _⟩) <;> exact lt_irrefl _ h
    rw [if_neg hno, if_pos (by rw [sub_self, abs_zero]; norm_num)]
  · intro hside h1 h2
    push_neg at h1 h2
    rcases lt_trichotomy V1 IsoLevel with h | h | h
    · have hv2 : IsoLevel ≤ V2 := by
        by_contra hlt
        exact hside (Or.inl ⟨h, lt_of_not_le hlt⟩)
      have e1 : 1 / 100000 ≤ IsoLevel - V1 := by
        rw [abs_of_nonneg (by linarith)] at h1; exact h1
      have e2 : 1 / 100000 ≤ V2 - IsoLevel := by
        rw [abs_of_nonpos (by linarith)] at h2; linarith
      rw [abs_of_nonneg (by linarith)]
      linarith
    · exfalso
      rw [h, sub_self, abs_zero] at h1
      norm_num at h1
    · have hv2 : V2 ≤ IsoLevel := by
        by_contra hlt
        exact hside (Or.inr ⟨h, lt_of_not_le hlt⟩)
      have e1 : 1 / 100000 ≤ V1 - IsoLevel := by
        rw [abs_of_nonpos (by linarith)] at h1; linarith
      have e2 : 1 / 100000 ≤ IsoLevel - V2 := by
        rw [abs_of_nonneg (by linarith)] at h2; exact h2
      rw [abs_of_nonpos (by linarith)]
      linarith
  · intro hnear
    unfold AVoxelChunk.VertexInterp
    rw [if_pos hnear]

/-- Witness for C6 (amended) at concrete inputs: equal densities away from
the iso level give the midpoint in both interpolators. -/
theorem c6_amended_witness :
    FMarchingCubes.VertexInterpolation ⟨0, 0, 0⟩ ⟨2, 0, 0⟩ 1 1 5 = ⟨1, 0, 0⟩ ∧
    AVoxelChunk.VertexInterp ⟨0, 0, 0⟩ ⟨2, 0, 0⟩ 1 1 = ⟨1, 0, 0⟩ := by
  have h := c6_amended ⟨0, 0, 0⟩ ⟨2, 0, 0⟩ 1 1 5 1 1
  have h1 := h.2.1 rfl (by norm_num)
  have h2 := h.2.2.2.2 (by norm_num)
  rw [h1, h2]
  norm_num

/- ======================================================================
C3 — per-frame mesh-upload pass
(`ACubeSpherePlanet::ProcessMeshUpdateQueue`, part_001 lines 571-584;
`ACubeSpherePlanet::OnChunkGenerationFinished`, lines 590-600;
`AVoxelChunk::UploadMesh`, VoxelChunk.cpp lines 122-144)
====================================================================== -/

/-- Renderable state of one `AVoxelChunk` actor: the generated mesh buffers
(`GeneratedMeshData`) and the mesh sections currently held by its
`UProceduralMeshComponent` render proxy. -/
structure VoxelChunkState where
  Vertices : List (V3 ℚ)
  Triangles : List ℤ
  Normals : List (V3 ℚ)
  Colors : List ℕ
  UploadedSections : List (List (V3 ℚ) × List ℤ × List (V3 ℚ) × List ℕ)
deriving DecidableEq

/-- Mesh upload (`AVoxelChunk::UploadMesh`): all previous sections are
cleared, one section is created from the generated buffers, and the
generated vertex, triangle, normal and color buffers are emptied
immediately afterwards. -/
def uploadMesh (c : VoxelChunkState) : VoxelChunkState :=
  { Vertices := []
    Triangles := []
    Normals := []
    Colors := []
    UploadedSections := [(c.Vertices, c.Triangles, c.Normals, c.Colors)] }

/-- Per-frame upload pass (`ACubeSpherePlanet::ProcessMeshUpdateQueue`):
while the queue is nonempty and fewer than `ChunksMeshUpdatesPerFrame`
chunks were processed this frame, `TArray::Pop` removes the LAST queue
element (the most recently enqueued chunk) and uploads it.  Returns the
remaining queue and the uploaded chunks in processing order.  The
`IsValid` liveness test of the source always succeeds in this model. -/
def processMeshUpdateQueue :
    ℕ → List VoxelChunkState → List VoxelChunkState × List VoxelChunkState
  | 0, queue => (queue, [])
  | Nat.succ k, queue =>
      match queue.getLast? with
      | none => (queue, [])
      | some c =>
          let r := processMeshUpdateQueue k queue.dropLast
          (r.1, uploadMesh c :: r.2)

/-- Generation-finished callback (`ACubeSpherePlanet::OnChunkGenerationFinished`):
the finished chunk is appended at the END of the mesh-update queue and the
in-flight generation count is decremented (never below zero). -/
def onChunkGenerationFinished (queue : List VoxelChunkState)
    (activeTasks : ℕ) (c : VoxelChunkState) : List VoxelChunkState × ℕ :=
  (queue ++ [c], activeTasks - 1)

/-- Chunk whose generated buffers carry a distinguishing tag. -/
def taggedChunk (n : ℕ) : VoxelChunkState :=
  { Vertices := [⟨(n : ℚ), 0, 0⟩]
    Triangles := [0, 1, 2]
    Normals := [⟨0, 0, 1⟩]
    Colors := [n]
    UploadedSections := [] }

/-- C3 divergence witness: enqueueing chunk 0 then chunk 1 through
`OnChunkGenerationFinished` and running the upload pass with a budget of
K = 1 uploads chunk 1 — the most recently generated chunk — while the FIFO
order documented in the spec (and in the comment on the `Pop` call itself)
requires chunk 0.  The budget of one upload and the emptying of the
generated buffers after upload do hold. -/
theorem c3_upload_order_bug :
    ((onChunkGenerationFinished
        (onChunkGenerationFinished [] 2 (taggedChunk 0)).1 1 (taggedChunk 1)).1 =
      [taggedChunk 0, taggedChunk 1]) ∧
    processMeshUpdateQueue 1 [taggedChunk 0, taggedChunk 1] =
      ([taggedChunk 0], [uploadMesh (taggedChunk 1)]) ∧
    uploadMesh (taggedChunk 1) ≠ uploadMesh (taggedChunk 0) ∧
    (uploadMesh (taggedChunk 1)).Vertices = [] ∧
    (uploadMesh (taggedChunk 1)).Triangles = [] ∧
    (uploadMesh (taggedChunk 1)).Normals = [] := by
  refine ⟨rfl, ?_, ?_, rfl, rfl, rfl⟩
  · rfl
  · decide

/- ======================================================================
C7 — per-frame spawn pass
(`ACubeSpherePlanet::ProcessSpawnQueue`, part_001 lines 494-569)
====================================================================== -/

/-- Data the spawn pass reads for one queued chunk index: the chunk world
location recomputed at pop time, whether `ChunkInfos.IsValidIndex` holds,
and whether an actor already exists for the slot. -/
structure SpawnEntry where
  WorldLoc : V3 ℚ
  ValidIndex : Bool
  HasActive : Bool
deriving DecidableEq

/-- Spawn-pass loop (`ACubeSpherePlanet::ProcessSpawnQueue`): the argument
list is the spawn queue REVERSED so that its head is the element
`TArray::Pop` removes next.  Arguments `t` and `s` are
`ActiveGenerationTasks` and `SpawnedThisFrame`.  Each iteration first
checks queue nonemptiness, `t < MaxConcurrentChunkGenerations` and
`s < ChunksToSpawnPerFrame`; a popped entry failing the index-validity,
recomputed render-distance or no-existing-actor checks is dropped WITHOUT
incrementing `s`; a spawned entry starts one generation task and counts
against the per-frame budget.  Result: (remaining reversed queue, final
task count, spawned entries in spawn order).  `SpawnActorDeferred` is
assumed to succeed. -/
def processSpawnLoop (M N : ℕ) (obs : V3 ℚ) (renderDistSq : ℚ) :
    List SpawnEntry → ℕ → ℕ → List SpawnEntry × ℕ × List SpawnEntry
  | [], t, _ => ([], t, [])
  | e :: rest, t, s =>
      if t < M ∧ s < N then
        if e.ValidIndex = false then processSpawnLoop M N obs renderDistSq rest t s
        else if renderDistSq < V3.distSquared e.WorldLoc obs then
          processSpawnLoop M N obs renderDistSq rest t s
        else if e.HasActive then processSpawnLoop M N obs renderDistSq rest t s
        else
          ((processSpawnLoop M N obs renderDistSq rest (t + 1) (s + 1)).1,
           (processSpawnLoop M N obs renderDistSq rest (t + 1) (s + 1)).2.1,
           e :: (processSpawnLoop M N obs renderDistSq rest (t + 1) (s + 1)).2.2)
      else (e :: rest, t, [])

/-- Per-frame spawn pass: pops from the END of the spawn queue (via
`TArray::Pop`), so the loop runs over the reversed queue; the remaining
queue is restored to storage order. -/
def processSpawnQueue (M N : ℕ) (obs : V3 ℚ) (renderDistSq : ℚ)
    (queue : List SpawnEntry) (t0 : ℕ) :
    List SpawnEntry × ℕ × List SpawnEntry :=
  let r := processSpawnLoop M N obs renderDistSq queue.reverse t0 0
  (r.1.reverse, r.2.1, r.2.2)

/-- Out-of-range entry used in the C7 counterexample. -/
def farEntry : SpawnEntry := { WorldLoc := ⟨10, 0, 0⟩, ValidIndex := true, HasActive := false }

/-- Counterexample to C7 as stated: with N = ChunksToSpawnPerFrame = 1,
M = 32, render distance squared 1 and two queued chunks that are now out of
range, the pass pops BOTH entries (the distance-dropped pops do not count
against N), so it does not pop at most N = 1 entries. -/
theorem c7_counterexample :
    ¬ ([farEntry, farEntry].length -
        (processSpawnQueue 32 1 ⟨0, 0, 0⟩ 1 [farEntry, farEntry] 0).1.length ≤ 1) := by
  have hq : processSpawnQueue 32 1 ⟨0, 0, 0⟩ 1 [farEntry, farEntry] 0 = ([], 0, []) := by
    norm_num [processSpawnQueue, processSpawnLoop, farEntry, V3.distSquared, V3.sizeSq]
  rw [hq]
  norm_num

/-- One-step unfolding of the spawn loop on an empty queue. -/
theorem processSpawnLoop_nil (M N : ℕ) (obs : V3 ℚ) (rd : ℚ) (t s : ℕ) :
    processSpawnLoop M N obs rd [] t s = ([], t, []) := rfl

/-- One-step unfolding of the spawn loop on a nonempty queue. -/
theorem processSpawnLoop_cons (M N : ℕ) (obs : V3 ℚ) (rd : ℚ)
    (e : SpawnEntry) (rest : List SpawnEntry) (t s : ℕ) :
    processSpawnLoop M N obs rd (e :: rest) t s =
      if t < M ∧ s < N then
        if e.ValidIndex = false then processSpawnLoop M N obs rd rest t s
        else if rd < V3.distSquared e.WorldLoc obs then
          processSpawnLoop M N obs rd rest t s
        else if e.HasActive then processSpawnLoop M N obs rd rest t s
        else
          ((processSpawnLoop M N obs rd rest (t + 1) (s + 1)).1,
           (processSpawnLoop M N obs rd rest (t + 1) (s + 1)).2.1,
           e :: (processSpawnLoop M N obs rd rest (t + 1) (s + 1)).2.2)
      else (e :: rest, t, []) := rfl

/-- Invariants of the spawn loop: the spawned count respects the per-frame
budget, each spawn starts exactly one generation task, a full task pipeline
stops the loop immediately, tasks never exceed the concurrency cap when
anything spawned, and every spawned entry passed the validity, distance and
no-existing-actor checks. -/
theorem processSpawnLoop_spec (M N : ℕ) (obs : V3 ℚ) (rd : ℚ) :
    ∀ (l : List SpawnEntry) (t s : ℕ),
      ((processSpawnLoop M N obs rd l t s).2.2.length + s ≤ N ∨
        (processSpawnLoop M N obs rd l t s).2.2.length = 0) ∧
      (processSpawnLoop M N obs rd l t s).2.1 =
        t + (processSpawnLoop M N obs rd l t s).2.2.length ∧
      (M ≤ t → processSpawnLoop M N obs rd l t s = (l, t, [])) ∧
      (0 < (processSpawnLoop M N obs rd l t s).2.2.length →
        (processSpawnLoop M N obs rd l t s).2.1 ≤ M) ∧
      (∀ e ∈ (processSpawnLoop M N obs rd l t s).2.2,
        e.ValidIndex = true ∧ V3.distSquared e.WorldLoc obs ≤ rd ∧
        e.HasActive = false) := by
  intro l
  induction l with
  | nil =>
      intro t s
      rw [processSpawnLoop_nil]
      refine ⟨Or.inr rfl, by simp, fun _ => rfl, by simp, by simp⟩
  | cons e rest ih =>
      intro t s
      rw [processSpawnLoop_cons]
      by_cases hcond : t < M ∧ s < N
      · rw [if_pos hcond]
        by_cases hvalid : e.ValidIndex = false
        · rw [if_pos hvalid]
          exact ⟨(ih t s).1, (ih t s).2.1,
            fun hM => absurd hcond.1 (not_lt.mpr hM),
            (ih t s).2.2.2.1, (ih t s).2.2.2.2⟩
        · rw [if_neg hvalid]
          by_cases hdist : rd < V3.distSquared e.WorldLoc obs
          · rw [if_pos hdist]
            exact ⟨(ih t s).1, (ih t s).2.1,
              fun hM => absurd hcond.1 (not_lt.mpr hM),
              (ih t s).2.2.2.1, (ih t s).2.2.2.2⟩
          · rw [if_neg hdist]
            by_cases hact : e.HasActive
            · rw [if_pos hact]
              exact ⟨(ih t s).1, (ih t s).2.1,
                fun hM => absurd hcond.1 (not_lt.mpr hM),
                (ih t s).2.2.2.1, (ih t s).2.2.2.2⟩
            · rw [if_neg hact]
              have ihs := ih (t + 1) (s + 1)
              refine ⟨?_, ?_, ?_, ?_, ?_⟩
              · left
                simp only [List.length_cons]
                rcases ihs.1 with h | h
                · omega
                · omega
              · simp only [List.length_cons]
                have hb := ihs.2.1
                omega
              · intro hM
                exact absurd hcond.1 (not_lt.mpr hM)
              · intro _
                simp only []
                rcases Nat.eq_zero_or_pos
                    (processSpawnLoop M N obs rd rest (t + 1) (s + 1)).2.2.length with hz | hp
                · have hb := ihs.2.1
                  omega
                · exact ihs.2.2.2.1 hp
              · intro f hf
                rcases List.mem_cons.mp hf with hf | hf
                · subst hf
                  exact ⟨by simpa using hvalid, not_lt.mp hdist, by simpa using hact⟩
                · exact ihs.2.2.2.2 f hf
      · rw [if_neg hcond]
        refine ⟨Or.inr rfl, by simp, fun _ => rfl, by simp, by simp⟩

/-- C7 (amended): the spawn pass spawns at most N = ChunksToSpawnPerFrame
chunks per frame (popped entries that fail the revalidation checks are
dropped without counting toward N, so more than N entries may be popped);
it pops only while fewer than M = MaxConcurrentChunkGenerations generation
tasks are in flight (a full pipeline leaves the queue untouched, and each
spawn starts exactly one task, never exceeding M); the distance to the
observer is recomputed at pop time and a chunk whose recomputed squared
distance exceeds the squared render distance is dropped: no actor is
spawned and no generation task is started for it, so every spawned entry is
within range, has a valid index and had no existing actor. -/
theorem c7_spawn_throttle :
    ∀ (M N : ℕ) (obs : V3 ℚ) (renderDistSq : ℚ) (queue : List SpawnEntry) (t0 : ℕ),
      (processSpawnQueue M N obs renderDistSq queue t0).2.2.length ≤ N ∧
      (processSpawnQueue M N obs renderDistSq queue t0).2.1 =
        t0 + (processSpawnQueue M N obs renderDistSq queue t0).2.2.length ∧
      (M ≤ t0 → processSpawnQueue M N obs renderDistSq queue t0 = (queue, t0, [])) ∧
      (0 < (processSpawnQueue M N obs renderDistSq queue t0).2.2.length →
        (processSpawnQueue M N obs renderDistSq queue t0).2.1 ≤ M) ∧
      (∀ e ∈ (processSpawnQueue M N obs renderDistSq queue t0).2.2,
        e.ValidIndex = true ∧ V3.distSquared e.WorldLoc obs ≤ renderDistSq ∧
        e.HasActive = false) := by
  intro M N obs rd queue t0
  have h := processSpawnLoop_spec M N obs rd queue.reverse t0 0
  refine ⟨?_, ?_, ?_, ?_, ?_⟩
  · rcases h.1 with hle | hz
    · simpa [processSpawnQueue] using hle
    · simp [processSpawnQueue, hz]
  · simpa [processSpawnQueue] using h.2.1
  · intro hM
    have := h.2.2.1 hM
    simp only [processSpawnQueue, this, List.reverse_reverse]
  · intro hp
    apply h.2.2.2.1
    simpa [processSpawnQueue] using hp
  · intro e he
    exact h.2.2.2.2 e (by simpa [processSpawnQueue] using he)

/-- In-range entry used by the C7 witness. -/
def nearEntry : SpawnEntry := { WorldLoc := ⟨1, 0, 0⟩, ValidIndex := true, HasActive := false }

/-- Witness for C7 at a concrete frame: one in-range queued chunk with an
idle pipeline spawns within all stated limits, and a full pipeline leaves
the queue untouched. -/
theorem c7_spawn_throttle_witness :
    (processSpawnQueue 4 2 ⟨0, 0, 0⟩ 100 [nearEntry] 0).2.2.length ≤ 2 ∧
    processSpawnQueue 4 2 ⟨0, 0, 0⟩ 100 [nearEntry] 4 = ([nearEntry], 4, []) := by
  have h := c7_spawn_throttle 4 2 ⟨0, 0, 0⟩ 100 [nearEntry] 0
  have h4 := c7_spawn_throttle 4 2 ⟨0, 0, 0⟩ 100 [nearEntry] 4
  exact ⟨h.1, h4.2.2.1 (le_refl 4)⟩

/- ======================================================================
C2 and C4 — density generators
(`DensityGenerator.cpp` and `PlanetDensityGenerator.cpp`)
====================================================================== -/

/-- Context for noise sampling (`FNoiseContext`). -/
structure FNoiseContext where
  WorldPosition : V3 ℝ
  PlanetRadius : ℝ
  PlanetSeed : ℕ

/-- Context for density sampling (`FDensityContext`), extending the noise
context. -/
structure FDensityContext extends FNoiseContext where
  TerrainAmplitude : ℝ
  SeaLevel : ℝ

/-- Pluggable noise interface (`IPlanetNoise`): a deterministic scalar
noise strategy.  Virtual dispatch is modelled as record-of-functions; the
claims under verification treat the noise values as opaque. -/
structure IPlanetNoise where
  Sample : FNoiseContext → ℝ → ℤ → ℝ
  SampleFractal : FNoiseContext → ℝ → ℕ → ℝ → ℝ → ℝ
  GetMaxAmplitude : ℝ

/-- Parameters of the authoritative density generator
(`FDensityGenerator::FParameters`). -/
structure FParameters where
  PlanetPosition : V3 ℝ
  PlanetRadius : ℝ
  SeaLevel : ℝ
  TerrainNoiseAmplitude : ℝ
  TerrainNoiseFrequency : ℝ
  CoreRadius : ℝ
  bEnableCaves : Bool
  CaveFrequency : ℝ
  CaveThreshold : ℝ

/-- Authoritative terrain density generator (`FDensityGenerator`): validated
parameters plus optional terrain and cave noise strategies.  The derived
`PlanetSeed` is opaque to the claims under verification. -/
structure FDensityGenerator where
  Params : FParameters
  TerrainNoise : Option IPlanetNoise
  CaveNoise : Option IPlanetNoise
  PlanetSeed : ℕ

namespace FDensityGenerator

/-- Context creation (`FDensityGenerator::CreateContext`). -/
def CreateContext (g : FDensityGenerator) (WorldPosition : V3 ℝ) : FDensityContext :=
  { WorldPosition := WorldPosition
    PlanetRadius := g.Params.PlanetRadius
    PlanetSeed := g.PlanetSeed
    TerrainAmplitude := g.Params.TerrainNoiseAmplitude
    SeaLevel := g.Params.SeaLevel }

/-- Ideal-sphere signed distance (`FDensityGenerator::SampleBaseSphere`,
DensityGenerator.cpp lines 54-67): distance to center minus radius; with a
positive solid core the carved core boundary is unioned in via max. -/
noncomputable def SampleBaseSphere (g : FDensityGenerator) (WorldPosition : V3 ℝ) : ℝ :=
  let Distance := V3.size WorldPosition
  if 0 < g.Params.CoreRadius then
    max (Distance - g.Params.PlanetRadius) (g.Params.CoreRadius - Distance)
  else
    Distance - g.Params.PlanetRadius

/-- Terrain displacement (`FDensityGenerator::ComputeTerrainDisplacement`,
lines 73-91): zero without a noise provider or with non-positive amplitude,
otherwise fractal noise (4 octaves, persistence 0.5, lacunarity 2) scaled by
the amplitude. -/
noncomputable def ComputeTerrainDisplacement (g : FDensityGenerator) (WorldPosition : V3 ℝ) : ℝ :=
  match g.TerrainNoise with
  | none => 0
  | some tn =>
      if g.Params.TerrainNoiseAmplitude ≤ 0 then 0
      else
        tn.SampleFractal (CreateContext g WorldPosition).toFNoiseContext
          g.Params.TerrainNoiseFrequency 4 (1 / 2) 2 * g.Params.TerrainNoiseAmplitude

/-- Cave density (`FDensityGenerator::ComputeCaveDensity`, lines 106-126):
1 without a cave noise provider, otherwise thresholded fractal noise scaled
by 10. -/
noncomputable def ComputeCaveDensity (g : FDensityGenerator) (WorldPosition : V3 ℝ) : ℝ :=
  match g.CaveNoise with
  | none => 1
  | some cn =>
      (cn.SampleFractal (CreateContext g WorldPosition).toFNoiseContext
        g.Params.CaveFrequency 3 (7 / 10) (9 / 5) - g.Params.CaveThreshold) * 10

/-- Density composition (`FDensityGenerator::SampleDensity`, lines 21-51):
base sphere minus terrain displacement, unioned (min) with the cave density
when caves are enabled and a cave noise provider exists.  The sea-level
step is commented out in the source. -/
noncomputable def SampleDensity (g : FDensityGenerator) (PositionRelativeToPlanet : V3 ℝ) : ℝ :=
  let Base := SampleBaseSphere g PositionRelativeToPlanet
  let Terrain := ComputeTerrainDisplacement g PositionRelativeToPlanet
  let Density := Base - Terrain
  if g.Params.bEnableCaves ∧ g.CaveNoise.isSome then
    min Density (ComputeCaveDensity g PositionRelativeToPlanet)
  else
    Density

/-- With caves disabled or no cave noise, the density is base minus terrain. -/
theorem SampleDensity_no_caves (g : FDensityGenerator) (pos : V3 ℝ)
    (h : g.Params.bEnableCaves = false ∨ g.CaveNoise = none) :
    SampleDensity g pos = SampleBaseSphere g pos - ComputeTerrainDisplacement g pos := by
  rcases h with h | h <;> simp [SampleDensity, h]

/-- With caves enabled and a cave provider, the density is the min with the
cave density. -/
theorem SampleDensity_caves (g : FDensityGenerator) (pos : V3 ℝ) (cn : IPlanetNoise)
    (hb : g.Params.bEnableCaves = true) (hc : g.CaveNoise = some cn) :
    SampleDensity g pos =
      min (SampleBaseSphere g pos - ComputeTerrainDisplacement g pos)
        (ComputeCaveDensity g pos) := by
  simp [SampleDensity, hb, hc]

/-- Terrain displacement vanishes with non-positive amplitude or no noise. -/
theorem ComputeTerrainDisplacement_zero (g : FDensityGenerator) (pos : V3 ℝ)
    (h : g.Params.TerrainNoiseAmplitude ≤ 0 ∨ g.TerrainNoise = none) :
    ComputeTerrainDisplacement g pos = 0 := by
  rcases h with h | h
  · cases htn : g.TerrainNoise with
    | none => simp [ComputeTerrainDisplacement, htn]
    | some tn => simp [ComputeTerrainDisplacement, htn, if_pos h]
  · simp [ComputeTerrainDisplacement, h]

end FDensityGenerator

/-- Configuration of the CubeSpherePlanet density generator
(`PlanetDensityGenerator::DensityConfig`). -/
structure DensityConfig where
  PlanetRadius : ℝ
  NoiseAmplitude : ℝ
  NoiseFrequency : ℝ
  Seed : ℤ
  VoxelSize : ℝ

namespace PlanetDensityGenerator

/-- Base sphere density (`PlanetDensityGenerator::SampleSphereDensity`,
PlanetDensityGenerator.cpp lines 126-134): positive INSIDE the planet,
negative outside, normalized by the voxel size. -/
noncomputable def SampleSphereDensity (cfg : DensityConfig) (PlanetRelativePosition : V3 ℝ) : ℝ :=
  (cfg.PlanetRadius - V3.size PlanetRelativePosition) / cfg.VoxelSize

set_option linter.unusedVariables false in
/-- Noise term (`PlanetDensityGenerator::SampleNoise`): a placeholder that
returns 0 in the source. -/
def SampleNoise (cfg : DensityConfig) (Position : V3 ℝ) : ℝ := 0

/-- Density (`PlanetDensityGenerator::SampleDensity`, lines 17-27): sphere
density plus the (currently zero) noise term. -/
noncomputable def SampleDensity (cfg : DensityConfig) (PlanetRelativePosition : V3 ℝ) : ℝ :=
  SampleSphereDensity cfg PlanetRelativePosition + SampleNoise cfg PlanetRelativePosition

end PlanetDensityGenerator

/-- Length of an axis-aligned vector. -/
theorem V3.size_axis (a : ℝ) (ha : 0 ≤ a) : V3.size ⟨a, 0, 0⟩ = a := by
  have h : (a * a + 0 * 0 + 0 * 0 : ℝ) = a ^ 2 := by ring
  rw [V3.size, V3.sizeSq, h, Real.sqrt_sq ha]

/-- C4: for every position, `FDensityGenerator::SampleDensity` equals
SampleBaseSphere minus ComputeTerrainDisplacement when caves are disabled
or no cave noise is set, and equals the min of that difference with
ComputeCaveDensity when caves are enabled with a cave noise provider; and
ComputeTerrainDisplacement returns 0 whenever the terrain amplitude is
non-positive or no terrain noise provider is set. -/
theorem c4_density_composition :
    ∀ (g : FDensityGenerator) (pos : V3 ℝ),
      ((g.Params.bEnableCaves = false ∨ g.CaveNoise = none) →
        FDensityGenerator.SampleDensity g pos =
          FDensityGenerator.SampleBaseSphere g pos -
            FDensityGenerator.ComputeTerrainDisplacement g pos) ∧
      (∀ cn : IPlanetNoise, g.Params.bEnableCaves = true → g.CaveNoise = some cn →
        FDensityGenerator.SampleDensity g pos =
          min
            (FDensityGenerator.SampleBaseSphere g pos -
              FDensityGenerator.ComputeTerrainDisplacement g pos)
            (FDensityGenerator.ComputeCaveDensity g pos)) ∧
      ((g.Params.TerrainNoiseAmplitude ≤ 0 ∨ g.TerrainNoise = none) →
        FDensityGenerator.ComputeTerrainDisplacement g pos = 0) := by
  intro g pos
  exact ⟨fun h => FDensityGenerator.SampleDensity_no_caves g pos h,
    fun cn hb hc => FDensityGenerator.SampleDensity_caves g pos cn hb hc,
    fun h => FDensityGenerator.ComputeTerrainDisplacement_zero g pos h⟩

/-- Density generator with no noise, no caves and no core, radius 2. -/
noncomputable def exampleGen : FDensityGenerator :=
  { Params :=
      { PlanetPosition := ⟨0, 0, 0⟩
        PlanetRadius := 2
        SeaLevel := 0
        TerrainNoiseAmplitude := 0
        TerrainNoiseFrequency := 1 / 1000
        CoreRadius := 0
        bEnableCaves := false
        CaveFrequency := 1 / 100
        CaveThreshold := 3 / 10 }
    TerrainNoise := none
    CaveNoise := none
    PlanetSeed := 0 }

/-- Witness for C4 at a concrete generator and position. -/
theorem c4_density_composition_witness :
    FDensityGenerator.SampleDensity exampleGen ⟨3, 0, 0⟩ =
      FDensityGenerator.SampleBaseSphere exampleGen ⟨3, 0, 0⟩ ∧
    FDensityGenerator.ComputeTerrainDisplacement exampleGen ⟨3, 0, 0⟩ = 0 := by
  have h := c4_density_composition exampleGen ⟨3, 0, 0⟩
  have h3 : FDensityGenerator.ComputeTerrainDisplacement exampleGen ⟨3, 0, 0⟩ = 0 :=
    h.2.2 (Or.inl (by norm_num [exampleGen]))
  have h1 := h.1 (Or.inl (by norm_num [exampleGen]))
  rw [h1, h3, sub_zero]
  exact ⟨rfl, h3⟩

/-- Density generator with a solid core at 0.9R (the largest core the
constructor clamp admits), radius 1000, no noise, no caves. -/
noncomputable def coreGen : FDensityGenerator :=
  { Params :=
      { PlanetPosition := ⟨0, 0, 0⟩
        PlanetRadius := 1000
        SeaLevel := 0
        TerrainNoiseAmplitude := 0
        TerrainNoiseFrequency := 1 / 1000
        CoreRadius := 900
        bEnableCaves := false
        CaveFrequency := 1 / 100
        CaveThreshold := 3 / 10 }
    TerrainNoise := none
    CaveNoise := none
    PlanetSeed := 0 }

/-- CubeSpherePlanet density configuration with radius 2, voxel size 1. -/
noncomputable def exampleConfig : DensityConfig :=
  { PlanetRadius := 2
    NoiseAmplitude := 0
    NoiseFrequency := 3 / 10000
    Seed := 1337
    VoxelSize := 1 }

/-- Counterexample to C2: the claim asserts that with no noise and caves
disabled every density generator variant is NEGATIVE at ‖p‖ = 0.5R.  But
`PlanetDensityGenerator::SampleDensity` (inverted sign convention,
positive = inside by its own header comment) is +1 at ‖p‖ = 0.5R for
R = 2, voxel size 1; and `FDensityGenerator::SampleDensity` with a solid
core of radius 0.9R (a configuration its constructor admits) is +400 at
‖p‖ = 0.5R for R = 1000. -/
theorem c2_counterexample :
    PlanetDensityGenerator.SampleDensity exampleConfig ⟨1, 0, 0⟩ = 1 ∧
    FDensityGenerator.SampleDensity coreGen ⟨500, 0, 0⟩ = 400 := by
  constructor
  · rw [PlanetDensityGenerator.SampleDensity, PlanetDensityGenerator.SampleSphereDensity,
      V3.size_axis 1 (by norm_num)]
    norm_num [PlanetDensityGenerator.SampleNoise, exampleConfig]
  · rw [FDensityGenerator.SampleDensity_no_caves coreGen _ (Or.inl rfl),
      FDensityGenerator.ComputeTerrainDisplacement_zero coreGen _ (Or.inl (by norm_num [coreGen])),
      sub_zero, FDensityGenerator.SampleBaseSphere]
    rw [V3.size_axis 500 (by norm_num)]
    have hc : (0 : ℝ) < coreGen.Params.CoreRadius := by norm_num [coreGen]
    rw [if_pos hc]
    norm_num [coreGen]

/-- C2 (amended): with no noise contribution (no provider or amplitude ≤ 0)
and caves disabled, both density generator variants vanish exactly at
‖p‖ = R, but they carry OPPOSITE sign conventions.
`FDensityGenerator::SampleDensity` (negative = inside), provided its solid
core radius is below 0.5R, is negative at ‖p‖ = 0.5R and positive at
‖p‖ = 1.5R.  `PlanetDensityGenerator::SampleDensity` inverts the
convention (positive = inside, as its own header documents): it is positive
at ‖p‖ = 0.5R and negative at ‖p‖ = 1.5R. -/
theorem c2_sign_convention :
    ∀ (g : FDensityGenerator) (cfg : DensityConfig) (R : ℝ) (p q r : V3 ℝ),
      0 < R →
      g.Params.PlanetRadius = R →
      g.Params.CoreRadius < R / 2 →
      (g.TerrainNoise = none ∨ g.Params.TerrainNoiseAmplitude ≤ 0) →
      (g.Params.bEnableCaves = false ∨ g.CaveNoise = none) →
      cfg.PlanetRadius = R →
      0 < cfg.VoxelSize →
      (V3.size p = R / 2 →
        FDensityGenerator.SampleDensity g p < 0 ∧
        0 < PlanetDensityGenerator.SampleDensity cfg p) ∧
      (V3.size q = R →
        FDensityGenerator.SampleDensity g q = 0 ∧
        PlanetDensityGenerator.SampleDensity cfg q = 0) ∧
      (V3.size r = 3 * R / 2 →
        0 < FDensityGenerator.SampleDensity g r ∧
        PlanetDensityGenerator.SampleDensity cfg r < 0) := by
  intro g cfg R p q r hR hgR hcore hnoise hcaves hcfgR hvox
  have hterr : ∀ x : V3 ℝ, FDensityGenerator.ComputeTerrainDisplacement g x = 0 := by
    intro x
    apply FDensityGenerator.ComputeTerrainDisplacement_zero
    rcases hnoise with h | h
    · exact Or.inr h
    · exact Or.inl h
  have hbase : ∀ x : V3 ℝ,
      FDensityGenerator.SampleDensity g x = FDensityGenerator.SampleBaseSphere g x := by
    intro x
    rw [FDensityGenerator.SampleDensity_no_caves g x hcaves, hterr x, sub_zero]
  refine ⟨?_, ?_, ?_⟩
  · intro hp
    constructor
    · rw [hbase p, FDensityGenerator.SampleBaseSphere]
      simp only [hp, hgR]
      split_ifs with hc
      · apply max_lt <;> linarith
      · linarith
    · rw [PlanetDensityGenerator.SampleDensity, PlanetDensityGenerator.SampleSphereDensity,
        PlanetDensityGenerator.SampleNoise, hp, hcfgR, add_zero]
      apply div_pos (by linarith) hvox
  · intro hq
    constructor
    · rw [hbase q, FDensityGenerator.SampleBaseSphere]
      simp only [hq, hgR]
      split_ifs with hc
      · rw [sub_self]
        rw [max_eq_left (by linarith)]
      · rw [sub_self]
    · rw [PlanetDensityGenerator.SampleDensity, PlanetDensityGenerator.SampleSphereDensity,
        PlanetDensityGenerator.SampleNoise, hq, hcfgR, add_zero, sub_self, zero_div]
  · intro hr
    constructor
    · rw [hbase r, FDensityGenerator.SampleBaseSphere]
      simp only [hr, hgR]
      split_ifs with hc
      · apply lt_max_of_lt_left
        linarith
      · linarith
    · rw [PlanetDensityGenerator.SampleDensity, PlanetDensityGenerator.SampleSphereDensity,
        PlanetDensityGenerator.SampleNoise, hr, hcfgR, add_zero]
      apply div_neg_of_neg_of_pos (by linarith) hvox

/-- Witness for C2 (amended) at R = 2 with the concrete no-noise generator
and configuration: the two conventions disagree pointwise. -/
theorem c2_sign_convention_witness :
    (FDensityGenerator.SampleDensity exampleGen ⟨1, 0, 0⟩ < 0 ∧
      0 < PlanetDensityGenerator.SampleDensity exampleConfig ⟨1, 0, 0⟩) ∧
    (FDensityGenerator.SampleDensity exampleGen ⟨2, 0, 0⟩ = 0 ∧
      PlanetDensityGenerator.SampleDensity exampleConfig ⟨2, 0, 0⟩ = 0) ∧
    (0 < FDensityGenerator.SampleDensity exampleGen ⟨3, 0, 0⟩ ∧
      PlanetDensityGenerator.SampleDensity exampleConfig ⟨3, 0, 0⟩ < 0) := by
  have h := c2_sign_convention exampleGen exampleConfig 2 ⟨1, 0, 0⟩ ⟨2, 0, 0⟩ ⟨3, 0, 0⟩
    (by norm_num) (by norm_num [exampleGen]) (by norm_num [exampleGen])
    (Or.inl rfl) (Or.inl rfl) (by norm_num [exampleConfig]) (by norm_num [exampleConfig])
  exact ⟨h.1 (by rw [V3.size_axis 1 (by norm_num)]; norm_num),
    h.2.1 (by rw [V3.size_axis 2 (by norm_num)]),
    h.2.2 (by rw [V3.size_axis 3 (by norm_num)]; norm_num)⟩

/- ======================================================================
C9 — sphere-to-cube projections (`MathUtils.cpp`)
====================================================================== -/

/-- Component access by axis index (`FVector::operator[]`): index 0 is X,
1 is Y, anything else Z (the source only uses 0..2). -/
def axisComponent (v : V3 ℝ) : ℕ → ℝ
  | 0 => v.x
  | 1 => v.y
  | _ => v.z

/-- Normalization check (`FPlanetMath::IsValidSphereDirection`): the squared
length is within the tolerance of 1. -/
def isValidSphereDirection (Dir : V3 ℝ) (Tolerance : ℝ) : Prop :=
  |V3.sizeSq Dir - 1| < Tolerance

noncomputable instance (Dir : V3 ℝ) (Tolerance : ℝ) :
    Decidable (isValidSphereDirection Dir Tolerance) := by
  unfold isValidSphereDirection
  infer_instance

/-- Safe normalization (`FVector::GetSafeNormal` as used by the source):
already-unit vectors pass through, vectors with squared length below the
tolerance give the zero vector, everything else is scaled by the inverse
length. -/
noncomputable def getSafeNormal (v : V3 ℝ) (Tolerance : ℝ) : V3 ℝ :=
  if V3.sizeSq v = 1 then v
  else if V3.sizeSq v < Tolerance then ⟨0, 0, 0⟩
  else (1 / Real.sqrt (V3.sizeSq v)) • v

/-- Main body of `FPlanetMath::SphereToCubeFace` once the direction is
valid: dominant face, guarded division by the dominant component, UV from
dot products with the face tangent basis, clamped to [-1, 1]. -/
noncomputable def sphereToCubeFaceCore (SphereDir : V3 ℝ) : Fin 6 × ℝ × ℝ :=
  let OutFace := getDominantFace SphereDir
  let AbsComponent := |axisComponent SphereDir (OutFace.val / 2)|
  if AbsComponent < 1 / 1000000 then (OutFace, 0, 0)
  else
    let Scale := 1 / AbsComponent
    let CubePoint := Scale • SphereDir
    (OutFace,
     clamp (V3.dot CubePoint (cubeFaceTangents OutFace)) (-1) 1,
     clamp (V3.dot CubePoint (cubeFaceBitangents OutFace)) (-1) 1)

/-- Fuel-indexed embedding of the self-recursive
`FPlanetMath::SphereToCubeFace`: an invalid direction that is not tiny is
normalized and the function recurses on the result.  Over exact real
arithmetic the recursion depth is at most 2 (the fuel-stability theorem
below), so the fuel parameter is an artifact of the embedding only. -/
noncomputable def sphereToCubeFaceFuel : ℕ → V3 ℝ → Fin 6 × ℝ × ℝ
  | 0, _ => (0, 0, 0)
  | Nat.succ n, SphereDir =>
      if isValidSphereDirection SphereDir (1 / 1000000) then
        sphereToCubeFaceCore SphereDir
      else if V3.sizeSq SphereDir < 1 / 1000000000000 then (0, 0, 0)
      else sphereToCubeFaceFuel n (getSafeNormal SphereDir (1 / 100000000))

/-- The sphere-to-cube-face projection (`FPlanetMath::SphereToCubeFace`)
with enough fuel for its worst-case recursion depth. -/
noncomputable def sphereToCubeFace (SphereDir : V3 ℝ) : Fin 6 × ℝ × ℝ :=
  sphereToCubeFaceFuel 3 SphereDir

/-- Sphere-to-cube point (`FPlanetMath::SpherePointToCube`, MathUtils.cpp
lines 104-116): invalid directions give the +X face normal, otherwise the
direction is scaled onto the cube by the dominant component. -/
noncomputable def spherePointToCube (SphereDir : V3 ℝ) : V3 ℝ :=
  if ¬ isValidSphereDirection SphereDir (1 / 1000000) then cubeFaceNormals 0
  else (1 / |axisComponent SphereDir ((getDominantFace SphereDir).val / 2)|) • SphereDir

/-- Squared length scales quadratically under scalar multiplication. -/
theorem V3.sizeSq_smul (c : ℝ) (v : V3 ℝ) :
    V3.sizeSq (c • v) = c ^ 2 * V3.sizeSq v := by
  simp only [V3.smul_def, V3.sizeSq]
  ring

/-- A valid direction evaluates through the core in one step, with any
positive fuel. -/
theorem sphereToCubeFaceFuel_of_valid (j : ℕ) (hj : 1 ≤ j) (w : V3 ℝ)
    (hv : isValidSphereDirection w (1 / 1000000)) :
    sphereToCubeFaceFuel j w = sphereToCubeFaceCore w := by
  obtain ⟨a, rfl⟩ := Nat.exists_eq_add_of_le hj
  rw [Nat.add_comm]
  show sphereToCubeFaceFuel (Nat.succ a) w = sphereToCubeFaceCore w
  rw [sphereToCubeFaceFuel, if_pos hv]

/-- A tiny invalid direction evaluates to the fixed default, with any
positive fuel. -/
theorem sphereToCubeFaceFuel_of_tiny (j : ℕ) (hj : 1 ≤ j) (w : V3 ℝ)
    (hnv : ¬ isValidSphereDirection w (1 / 1000000))
    (hw : V3.sizeSq w < 1 / 1000000000000) :
    sphereToCubeFaceFuel j w = (0, 0, 0) := by
  obtain ⟨a, rfl⟩ := Nat.exists_eq_add_of_le hj
  rw [Nat.add_comm]
  show sphereToCubeFaceFuel (Nat.succ a) w = (0, 0, 0)
  rw [sphereToCubeFaceFuel, if_neg hnv, if_pos hw]

/-- Fuel stability: with fuel at least 2 the evaluation is independent of
the fuel, because the source recursion bottoms out after at most two
levels over exact real arithmetic. -/
theorem sphereToCubeFaceFuel_stable (m : ℕ) (hm : 2 ≤ m) (v : V3 ℝ) :
    sphereToCubeFaceFuel m v = sphereToCubeFaceFuel 2 v := by
  obtain ⟨a, rfl⟩ := Nat.exists_eq_add_of_le hm
  rw [Nat.add_comm]
  show sphereToCubeFaceFuel (Nat.succ (a + 1)) v = sphereToCubeFaceFuel (Nat.succ 1) v
  rw [sphereToCubeFaceFuel]
  conv_rhs => rw [sphereToCubeFaceFuel]
  by_cases hv : isValidSphereDirection v (1 / 1000000)
  · rw [if_pos hv, if_pos hv]
  · rw [if_neg hv, if_neg hv]
    by_cases htiny : V3.sizeSq v < 1 / 1000000000000
    · rw [if_pos htiny, if_pos htiny]
    · rw [if_neg htiny, if_neg htiny]
      have hs1 : V3.sizeSq v ≠ 1 := by
        intro h
        apply hv
        rw [isValidSphereDirection, h, sub_self, abs_zero]
        norm_num
      unfold getSafeNormal
      rw [if_neg hs1]
      by_cases hsmall : V3.sizeSq v < 1 / 100000000
      · rw [if_pos hsmall]
        have hz : V3.sizeSq (⟨0, 0, 0⟩ : V3 ℝ) = 0 := by
          simp [V3.sizeSq]
        have hnv0 : ¬ isValidSphereDirection ⟨0, 0, 0⟩ (1 / 1000000) := by
          rw [isValidSphereDirection, hz]
          rw [abs_of_nonpos (by norm_num)]
          norm_num
        rw [sphereToCubeFaceFuel_of_tiny (a + 1) (by omega) _ hnv0 (by rw [hz]; norm_num),
          sphereToCubeFaceFuel_of_tiny 1 (le_refl 1) _ hnv0 (by rw [hz]; norm_num)]
      · rw [if_neg hsmall]
        have hpos : 0 < V3.sizeSq v := by
          have := not_lt.mp hsmall
          linarith
        have hunit : V3.sizeSq ((1 / Real.sqrt (V3.sizeSq v)) • v) = 1 := by
          rw [V3.sizeSq_smul, div_pow, one_pow, Real.sq_sqrt (le_of_lt hpos)]
          field_simp
        have hval : isValidSphereDirection ((1 / Real.sqrt (V3.sizeSq v)) • v) (1 / 1000000) := by
          rw [isValidSphereDirection, hunit, sub_self, abs_zero]
          norm_num
        rw [sphereToCubeFaceFuel_of_valid (a + 1) (by omega) _ hval,
          sphereToCubeFaceFuel_of_valid 1 (le_refl 1) _ hval]

/-- Nonnegativity of the squared length. -/
theorem V3.sizeSq_nonneg (v : V3 ℝ) : 0 ≤ V3.sizeSq v := by
  rw [V3.sizeSq]
  nlinarith [mul_self_nonneg v.x, mul_self_nonneg v.y, mul_self_nonneg v.z]

/-- The X component dominates and the vector is nonzero. -/
theorem abs_x_pos_of_dominant (v : V3 ℝ) (h : 0 < V3.sizeSq v)
    (hy : |v.y| ≤ |v.x|) (hz : |v.z| ≤ |v.x|) : 0 < |v.x| := by
  by_contra hc
  have hxa : |v.x| = 0 := le_antisymm (not_lt.mp hc) (abs_nonneg _)
  have hx0 : v.x = 0 := abs_eq_zero.mp hxa
  have hy0 : v.y = 0 := abs_eq_zero.mp (le_antisymm (hxa ▸ hy) (abs_nonneg _))
  have hz0 : v.z = 0 := abs_eq_zero.mp (le_antisymm (hxa ▸ hz) (abs_nonneg _))
  rw [V3.sizeSq, hx0, hy0, hz0] at h
  norm_num at h

/-- The Y component dominates when the X test failed. -/
theorem abs_y_pos_of_dominant (v : V3 ℝ)
    (hA : ¬ (|v.y| ≤ |v.x| ∧ |v.z| ≤ |v.x|)) (hz : |v.z| ≤ |v.y|) : 0 < |v.y| := by
  rcases lt_or_eq_of_le (abs_nonneg v.y) with h | h
  · exact h
  · exfalso
    apply hA
    constructor
    · rw [← h]
      exact abs_nonneg v.x
    · calc |v.z| ≤ |v.y| := hz
        _ = 0 := h.symm
        _ ≤ |v.x| := abs_nonneg v.x

/-- The Z component dominates when both earlier tests failed. -/
theorem abs_z_pos_of_dominant (v : V3 ℝ) (hB : ¬ (|v.z| ≤ |v.y|)) : 0 < |v.z| :=
  lt_of_le_of_lt (abs_nonneg v.y) (not_le.mp hB)

/-- The dominant-axis component of a vector with positive squared length is
nonzero: the division in the cube projections is guarded. -/
theorem dominantAbs_pos (v : V3 ℝ) (h : 0 < V3.sizeSq v) :
    0 < |axisComponent v ((getDominantFace v).val / 2)| := by
  unfold getDominantFace
  by_cases hA : |v.y| ≤ |v.x| ∧ |v.z| ≤ |v.x|
  · rw [if_pos hA]
    by_cases hsx : 0 ≤ v.x
    · rw [if_pos hsx]
      exact abs_x_pos_of_dominant v h hA.1 hA.2
    · rw [if_neg hsx]
      exact abs_x_pos_of_dominant v h hA.1 hA.2
  · rw [if_neg hA]
    by_cases hB : |v.z| ≤ |v.y|
    · rw [if_pos hB]
      by_cases hsy : 0 ≤ v.y
      · rw [if_pos hsy]
        exact abs_y_pos_of_dominant v hA hB
      · rw [if_neg hsy]
        exact abs_y_pos_of_dominant v hA hB
    · rw [if_neg hB]
      by_cases hsz : 0 ≤ v.z
      · rw [if_pos hsz]
        exact abs_z_pos_of_dominant v hB
      · rw [if_neg hsz]
        exact abs_z_pos_of_dominant v hB

/-- C9: `SphereToCubeFace` and `SpherePointToCube` are total: the source
recursion of `SphereToCubeFace` evaluates identically under any fuel at
least 3 (its depth never exceeds 2 over exact arithmetic); a zero or
below-tolerance input deterministically yields face +X with U = V = 0,
and `SpherePointToCube` yields the +X face normal for every invalid
(including zero) direction; for valid directions the divisor — the dominant
absolute component — is strictly positive, so no unguarded division
occurs. -/
theorem c9_projection_totality :
    ∀ (v : V3 ℝ) (fuel : ℕ), 3 ≤ fuel →
      sphereToCubeFaceFuel fuel v = sphereToCubeFace v ∧
      (V3.sizeSq v < 1 / 1000000000000 →
        sphereToCubeFace v = (0, 0, 0) ∧ spherePointToCube v = cubeFaceNormals 0) ∧
      (¬ isValidSphereDirection v (1 / 1000000) →
        spherePointToCube v = cubeFaceNormals 0) ∧
      (isValidSphereDirection v (1 / 1000000) →
        0 < |axisComponent v ((getDominantFace v).val / 2)| ∧
        spherePointToCube v =
          (1 / |axisComponent v ((getDominantFace v).val / 2)|) • v) := by
  intro v fuel hfuel
  have hnv_of_tiny : V3.sizeSq v < 1 / 1000000000000 →
      ¬ isValidSphereDirection v (1 / 1000000) := by
    intro htiny hval
    rw [isValidSphereDirection] at hval
    have hnn : 0 ≤ V3.sizeSq v := V3.sizeSq_nonneg v
    rw [abs_sub_lt_iff] at hval
    linarith [hval.2]
  refine ⟨?_, ?_, ?_, ?_⟩
  · rw [sphereToCubeFace, sphereToCubeFaceFuel_stable fuel (by omega) v,
      sphereToCubeFaceFuel_stable 3 (by omega) v]
  · intro htiny
    have hnv := hnv_of_tiny htiny
    constructor
    · rw [sphereToCubeFace]
      exact sphereToCubeFaceFuel_of_tiny 3 (by omega) v hnv htiny
    · rw [spherePointToCube, if_pos hnv]
  · intro hnv
    rw [spherePointToCube, if_pos hnv]
  · intro hval
    have hpos : 0 < V3.sizeSq v := by
      rw [isValidSphereDirection, abs_sub_lt_iff] at hval
      linarith [hval.1, hval.2]
    refine ⟨dominantAbs_pos v hpos, ?_⟩
    rw [spherePointToCube, if_neg (not_not.mpr hval)]

/-- Witness for C9 at the zero vector with fuel 3. -/
theorem c9_projection_totality_witness :
    sphereToCubeFace ⟨0, 0, 0⟩ = (0, 0, 0) ∧
    spherePointToCube ⟨0, 0, 0⟩ = cubeFaceNormals 0 := by
  have h := c9_projection_totality ⟨0, 0, 0⟩ 3 (le_refl 3)
  exact h.2.1 (by norm_num [V3.sizeSq])

/- ======================================================================
C5 — projected grid positions and the density field
(`PlanetDensityGenerator.cpp` lines 30-86)
====================================================================== -/

namespace PlanetDensityGenerator

/-- Spherified-cube mapping (`PlanetDensityGenerator::GetSpherifiedCubePoint`,
lines 151-165): per-axis closed-form correction for equal-area
distribution. -/
noncomputable def GetSpherifiedCubePoint (CubePoint : V3 ℝ) : V3 ℝ :=
  ⟨CubePoint.x * Real.sqrt (1 - (CubePoint.y * CubePoint.y) / 2 -
      (CubePoint.z * CubePoint.z) / 2 +
      (CubePoint.y * CubePoint.y) * (CubePoint.z * CubePoint.z) / 3),
   CubePoint.y * Real.sqrt (1 - (CubePoint.z * CubePoint.z) / 2 -
      (CubePoint.x * CubePoint.x) / 2 +
      (CubePoint.z * CubePoint.z) * (CubePoint.x * CubePoint.x) / 3),
   CubePoint.z * Real.sqrt (1 - (CubePoint.x * CubePoint.x) / 2 -
      (CubePoint.y * CubePoint.y) / 2 +
      (CubePoint.x * CubePoint.x) * (CubePoint.y * CubePoint.y) / 3)⟩

/-- Linear interpolation (`FMath::Lerp`). -/
def lerpUE (A B Alpha : ℝ) : ℝ := A + Alpha * (B - A)

/-- Grid-to-planet projection (`PlanetDensityGenerator::GetProjectedPosition`,
lines 63-86): grid index to normalized chunk UV, to face UV by lerp between
UVMin and UVMax, to a cube-face point, spherified, and scaled to radius plus
altitude, where the Z layer at Resolution/2 is the nominal surface. -/
noncomputable def GetProjectedPosition (cfg : DensityConfig) (x y z : ℕ) (Resolution : ℕ)
    (FaceNormal FaceRight FaceUp : V3 ℝ) (UVMin UVMax : ℝ × ℝ) : V3 ℝ :=
  let uPct : ℝ := (x : ℝ) / (Resolution : ℝ)
  let vPct : ℝ := (y : ℝ) / (Resolution : ℝ)
  let u : ℝ := lerpUE UVMin.1 UVMax.1 uPct
  let v : ℝ := lerpUE UVMin.2 UVMax.2 vPct
  let PointOnCube : V3 ℝ := FaceNormal + u • FaceRight + v • FaceUp
  let SphereDir : V3 ℝ := GetSpherifiedCubePoint PointOnCube
  let SurfaceLevel : ℝ := (Resolution : ℝ) / 2
  let Altitude : ℝ := ((z : ℝ) - SurfaceLevel) * cfg.VoxelSize
  (cfg.PlanetRadius + Altitude) • SphereDir

/-- The projection formula exactly as the specification words it:
S(N + R·lerp(UVMin.X, UVMax.X, x/resolution) + U·lerp(UVMin.Y, UVMax.Y,
y/resolution)) × (planetRadius + (z − resolution/2)·voxelSize), with S the
spherified-cube mapping. -/
noncomputable def specProjectedPosition (cfg : DensityConfig) (x y z : ℕ) (Resolution : ℕ)
    (FaceNormal FaceRight FaceUp : V3 ℝ) (UVMin UVMax : ℝ × ℝ) : V3 ℝ :=
  (cfg.PlanetRadius + ((z : ℝ) - (Resolution : ℝ) / 2) * cfg.VoxelSize) •
    GetSpherifiedCubePoint
      (FaceNormal + lerpUE UVMin.1 UVMax.1 ((x : ℝ) / (Resolution : ℝ)) • FaceRight +
        lerpUE UVMin.2 UVMax.2 ((y : ℝ) / (Resolution : ℝ)) • FaceUp)

/-- The code path and the spec formula agree definitionally. -/
theorem GetProjectedPosition_eq_spec (cfg : DensityConfig) (x y z Resolution : ℕ)
    (FaceNormal FaceRight FaceUp : V3 ℝ) (UVMin UVMax : ℝ × ℝ) :
    GetProjectedPosition cfg x y z Resolution FaceNormal FaceRight FaceUp UVMin UVMax =
      specProjectedPosition cfg x y z Resolution FaceNormal FaceRight FaceUp UVMin UVMax := rfl

/-- Generated field data (`PlanetDensityGenerator::FGenData`). -/
structure FGenData where
  Densities : List ℝ
  Positions : List (V3 ℝ)

end PlanetDensityGenerator

/-- Concatenation of per-index blocks in ascending index order, the shape of
an appending for-loop over indices 0 .. n-1. -/
def seqAppend {γ : Type} : ℕ → (ℕ → List γ) → List γ
  | 0, _ => []
  | Nat.succ k, f => seqAppend k f ++ f k

namespace PlanetDensityGenerator

/-- Density-field batch sampling
(`PlanetDensityGenerator::GenerateDensityField`, lines 30-60): the triple
loop (z outer, y middle, x inner, each over 0 .. Resolution) appends, for
every grid point, the projected position and the density sampled there. -/
noncomputable def GenerateDensityField (cfg : DensityConfig) (Resolution : ℕ)
    (FaceNormal FaceRight FaceUp : V3 ℝ) (UVMin UVMax : ℝ × ℝ) : FGenData :=
  { Densities :=
      seqAppend (Resolution + 1) fun z =>
        seqAppend (Resolution + 1) fun y =>
          seqAppend (Resolution + 1) fun x =>
            [SampleDensity cfg
              (PlanetDensityGenerator.GetProjectedPosition cfg x y z Resolution FaceNormal FaceRight FaceUp UVMin UVMax)]
    Positions :=
      seqAppend (Resolution + 1) fun z =>
        seqAppend (Resolution + 1) fun y =>
          seqAppend (Resolution + 1) fun x =>
            [GetProjectedPosition cfg x y z Resolution FaceNormal FaceRight FaceUp UVMin UVMax] }

end PlanetDensityGenerator

/-- Length of a loop concatenation with uniform block length. -/
theorem seqAppend_length {γ : Type} (f : ℕ → List γ) (m : ℕ)
    (hm : ∀ i, (f i).length = m) : ∀ n, (seqAppend n f).length = n * m := by
  intro n
  induction n with
  | zero => simp [seqAppend]
  | succ k ih =>
      rw [seqAppend, List.length_append, ih, hm k]
      ring

/-- Indexing into a loop concatenation with uniform block length. -/
theorem seqAppend_getElem {γ : Type} (f : ℕ → List γ) (m : ℕ)
    (hm : ∀ i, (f i).length = m) :
    ∀ (n i r : ℕ), i < n → r < m →
      (seqAppend n f)[i * m + r]? = (f i)[r]? := by
  intro n
  induction n with
  | zero => intro i r hi; omega
  | succ k ih =>
      intro i r hi hr
      rw [seqAppend]
      rcases Nat.lt_or_ge i k with hik | hik
      · have hidx : i * m + r < (seqAppend k f).length := by
          rw [seqAppend_length f m hm k]
          have h1 : i * m + r < (i + 1) * m := by
            rw [Nat.add_mul, Nat.one_mul]
            omega
          have h2 : (i + 1) * m ≤ k * m := Nat.mul_le_mul_right m (by omega)
          omega
        rw [List.getElem?_append, if_pos hidx]
        exact ih i r hik hr
      · have hik2 : i = k := by omega
        subst hik2
        have hlen : (seqAppend i f).length = i * m := seqAppend_length f m hm i
        have hge : ¬ (i * m + r < (seqAppend i f).length) := by omega
        rw [List.getElem?_append, if_neg hge, hlen]
        congr 1
        omega

/-- Spherified cube points of unit-dominant cube-face points lie on the unit
sphere: if one coordinate squares to 1 and the others square to at most 1,
the mapped point has squared length exactly 1. -/
theorem sizeSq_spherified_eq_one (p : V3 ℝ)
    (hx : p.x ^ 2 ≤ 1) (hy : p.y ^ 2 ≤ 1) (hz : p.z ^ 2 ≤ 1)
    (hone : p.x ^ 2 = 1 ∨ p.y ^ 2 = 1 ∨ p.z ^ 2 = 1) :
    V3.sizeSq (PlanetDensityGenerator.GetSpherifiedCubePoint p) = 1 := by
  have hx0 : 0 ≤ p.x ^ 2 := sq_nonneg p.x
  have hy0 : 0 ≤ p.y ^ 2 := sq_nonneg p.y
  have hz0 : 0 ≤ p.z ^ 2 := sq_nonneg p.z
  have hA : 0 ≤ 1 - (p.y * p.y) / 2 - (p.z * p.z) / 2 + (p.y * p.y) * (p.z * p.z) / 3 := by
    nlinarith [mul_nonneg (by nlinarith : (0:ℝ) ≤ 1 - p.y ^ 2) (by nlinarith : (0:ℝ) ≤ 1 - p.z ^ 2)]
  have hB : 0 ≤ 1 - (p.z * p.z) / 2 - (p.x * p.x) / 2 + (p.z * p.z) * (p.x * p.x) / 3 := by
    nlinarith [mul_nonneg (by nlinarith : (0:ℝ) ≤ 1 - p.z ^ 2) (by nlinarith : (0:ℝ) ≤ 1 - p.x ^ 2)]
  have hC : 0 ≤ 1 - (p.x * p.x) / 2 - (p.y * p.y) / 2 + (p.x * p.x) * (p.y * p.y) / 3 := by
    nlinarith [mul_nonneg (by nlinarith : (0:ℝ) ≤ 1 - p.x ^ 2) (by nlinarith : (0:ℝ) ≤ 1 - p.y ^ 2)]
  rw [PlanetDensityGenerator.GetSpherifiedCubePoint, V3.sizeSq]
  have e1 : (p.x * Real.sqrt (1 - (p.y * p.y) / 2 - (p.z * p.z) / 2 +
        (p.y * p.y) * (p.z * p.z) / 3)) *
      (p.x * Real.sqrt (1 - (p.y * p.y) / 2 - (p.z * p.z) / 2 +
        (p.y * p.y) * (p.z * p.z) / 3)) =
      p.x ^ 2 * (1 - (p.y * p.y) / 2 - (p.z * p.z) / 2 + (p.y * p.y) * (p.z * p.z) / 3) := by
    rw [mul_mul_mul_comm, Real.mul_self_sqrt hA]
    ring
  have e2 : (p.y * Real.sqrt (1 - (p.z * p.z) / 2 - (p.x * p.x) / 2 +
        (p.z * p.z) * (p.x * p.x) / 3)) *
      (p.y * Real.sqrt (1 - (p.z * p.z) / 2 - (p.x * p.x) / 2 +
        (p.z * p.z) * (p.x * p.x) / 3)) =
      p.y ^ 2 * (1 - (p.z * p.z) / 2 - (p.x * p.x) / 2 + (p.z * p.z) * (p.x * p.x) / 3) := by
    rw [mul_mul_mul_comm, Real.mul_self_sqrt hB]
    ring
  have e3 : (p.z * Real.sqrt (1 - (p.x * p.x) / 2 - (p.y * p.y) / 2 +
        (p.x * p.x) * (p.y * p.y) / 3)) *
      (p.z * Real.sqrt (1 - (p.x * p.x) / 2 - (p.y * p.y) / 2 +
        (p.x * p.x) * (p.y * p.y) / 3)) =
      p.z ^ 2 * (1 - (p.x * p.x) / 2 - (p.y * p.y) / 2 + (p.x * p.x) * (p.y * p.y) / 3) := by
    rw [mul_mul_mul_comm, Real.mul_self_sqrt hC]
    ring
  rw [e1, e2, e3]
  rcases hone with h1 | h1 | h1
  · linear_combination ((1 - p.y ^ 2) * (1 - p.z ^ 2)) * h1
  · linear_combination ((1 - p.x ^ 2) * (1 - p.z ^ 2)) * h1
  · linear_combination ((1 - p.x ^ 2) * (1 - p.y ^ 2)) * h1

/-- The UE lerp of values in [-1, 1] at a parameter in [0, 1] stays in
[-1, 1] (squared form). -/
theorem lerpUE_sq_le_one (a b t : ℝ) (ha1 : -1 ≤ a) (ha2 : a ≤ 1)
    (hb1 : -1 ≤ b) (hb2 : b ≤ 1) (ht0 : 0 ≤ t) (ht1 : t ≤ 1) :
    (PlanetDensityGenerator.lerpUE a b t) ^ 2 ≤ 1 := by
  have h1 : -1 ≤ PlanetDensityGenerator.lerpUE a b t := by
    rw [PlanetDensityGenerator.lerpUE]
    nlinarith
  have h2 : PlanetDensityGenerator.lerpUE a b t ≤ 1 := by
    rw [PlanetDensityGenerator.lerpUE]
    nlinarith
  nlinarith

/-- Scaling a unit-squared-length vector by a nonnegative factor gives that
factor as the length. -/
theorem size_smul_of_sizeSq_one (R : ℝ) (hR : 0 ≤ R) (w : V3 ℝ)
    (h : V3.sizeSq w = 1) : V3.size (R • w) = R := by
  rw [V3.size, V3.sizeSq_smul, h, mul_one, Real.sqrt_sq hR]

/-- The six face bases (normal, right, up) that `PrepareGeneration` in the
CubeSpherePlanet streaming controller feeds into the projection. -/
def stdFaceBases : List (V3 ℝ × V3 ℝ × V3 ℝ) :=
  [(⟨1, 0, 0⟩, ⟨0, 1, 0⟩, ⟨0, 0, 1⟩),
   (⟨-1, 0, 0⟩, ⟨0, -1, 0⟩, ⟨0, 0, 1⟩),
   (⟨0, 1, 0⟩, ⟨-1, 0, 0⟩, ⟨0, 0, 1⟩),
   (⟨0, -1, 0⟩, ⟨1, 0, 0⟩, ⟨0, 0, 1⟩),
   (⟨0, 0, 1⟩, ⟨1, 0, 0⟩, ⟨0, 1, 0⟩),
   (⟨0, 0, -1⟩, ⟨1, 0, 0⟩, ⟨0, -1, 0⟩)]

/-- A point assembled from a standard face basis with coefficients of square
at most 1 has a unit-dominant coordinate pattern, so its spherified image
has squared length 1. -/
theorem sizeSq_spherified_face_point (N Rt U : V3 ℝ)
    (hmem : (N, Rt, U) ∈ stdFaceBases) (u v : ℝ)
    (hu : u ^ 2 ≤ 1) (hv : v ^ 2 ≤ 1) :
    V3.sizeSq (PlanetDensityGenerator.GetSpherifiedCubePoint (N + u • Rt + v • U)) = 1 := by
  have hnegu : (-u) ^ 2 ≤ 1 := by nlinarith
  have hnegv : (-v) ^ 2 ≤ 1 := by nlinarith
  simp only [stdFaceBases, List.mem_cons, List.not_mem_nil, or_false, Prod.mk.injEq] at hmem
  rcases hmem with ⟨hN, hRt, hU⟩ | ⟨hN, hRt, hU⟩ | ⟨hN, hRt, hU⟩ |
    ⟨hN, hRt, hU⟩ | ⟨hN, hRt, hU⟩ | ⟨hN, hRt, hU⟩ <;>
      subst hN <;> subst hRt <;> subst hU
  · have hP : (⟨1, 0, 0⟩ : V3 ℝ) + u • ⟨0, 1, 0⟩ + v • ⟨0, 0, 1⟩ = ⟨1, u, v⟩ := by
      simp
    rw [hP]
    exact sizeSq_spherified_eq_one ⟨1, u, v⟩ (by norm_num) hu hv (Or.inl (by norm_num))
  · have hP : (⟨-1, 0, 0⟩ : V3 ℝ) + u • ⟨0, -1, 0⟩ + v • ⟨0, 0, 1⟩ = ⟨-1, -u, v⟩ := by
      simp
    rw [hP]
    exact sizeSq_spherified_eq_one ⟨-1, -u, v⟩ (by norm_num) hnegu hv (Or.inl (by norm_num))
  · have hP : (⟨0, 1, 0⟩ : V3 ℝ) + u • ⟨-1, 0, 0⟩ + v • ⟨0, 0, 1⟩ = ⟨-u, 1, v⟩ := by
      simp
    rw [hP]
    exact sizeSq_spherified_eq_one ⟨-u, 1, v⟩ hnegu (by norm_num) hv (Or.inr (Or.inl (by norm_num)))
  · have hP : (⟨0, -1, 0⟩ : V3 ℝ) + u • ⟨1, 0, 0⟩ + v • ⟨0, 0, 1⟩ = ⟨u, -1, v⟩ := by
      simp
    rw [hP]
    exact sizeSq_spherified_eq_one ⟨u, -1, v⟩ hu (by norm_num) hv (Or.inr (Or.inl (by norm_num)))
  · have hP : (⟨0, 0, 1⟩ : V3 ℝ) + u • ⟨1, 0, 0⟩ + v • ⟨0, 1, 0⟩ = ⟨u, v, 1⟩ := by
      simp
    rw [hP]
    exact sizeSq_spherified_eq_one ⟨u, v, 1⟩ hu hv (by norm_num) (Or.inr (Or.inr (by norm_num)))
  · have hP : (⟨0, 0, -1⟩ : V3 ℝ) + u • ⟨1, 0, 0⟩ + v • ⟨0, -1, 0⟩ = ⟨u, -v, -1⟩ := by
      simp
    rw [hP]
    exact sizeSq_spherified_eq_one ⟨u, -v, -1⟩ hu hnegv (by norm_num) (Or.inr (Or.inr (by norm_num)))

/-- C5: `GetProjectedPosition` computes exactly the spec formula
S(N + R·lerp(UVMin.X, UVMax.X, x/res) + U·lerp(UVMin.Y, UVMax.Y, y/res)) ×
(planetRadius + (z − res/2)·voxelSize); in particular, for a standard face
basis with in-range UV window, the layer 2z = resolution lies exactly on
the radius-R shell; and `GenerateDensityField` produces (resolution+1)³
positions and densities, the entry at flat index (z·(res+1)+y)·(res+1)+x
being the projected position of grid index (x, y, z) and the density
sampled exactly there. -/
theorem c5_projected_grid :
    ∀ (cfg : DensityConfig) (x y z Resolution : ℕ)
      (FaceNormal FaceRight FaceUp : V3 ℝ) (UVMin UVMax : ℝ × ℝ),
      PlanetDensityGenerator.GetProjectedPosition cfg x y z Resolution
          FaceNormal FaceRight FaceUp UVMin UVMax =
        PlanetDensityGenerator.specProjectedPosition cfg x y z Resolution
          FaceNormal FaceRight FaceUp UVMin UVMax ∧
      ((FaceNormal, FaceRight, FaceUp) ∈ stdFaceBases →
        -1 ≤ UVMin.1 → UVMin.1 ≤ 1 → -1 ≤ UVMax.1 → UVMax.1 ≤ 1 →
        -1 ≤ UVMin.2 → UVMin.2 ≤ 1 → -1 ≤ UVMax.2 → UVMax.2 ≤ 1 →
        x ≤ Resolution → y ≤ Resolution → 0 < Resolution →
        2 * z = Resolution → 0 ≤ cfg.PlanetRadius →
        V3.size (PlanetDensityGenerator.GetProjectedPosition cfg x y z Resolution
          FaceNormal FaceRight FaceUp UVMin UVMax) = cfg.PlanetRadius) ∧
      ((PlanetDensityGenerator.GenerateDensityField cfg Resolution
          FaceNormal FaceRight FaceUp UVMin UVMax).Densities.length = (Resolution + 1) ^ 3 ∧
       (PlanetDensityGenerator.GenerateDensityField cfg Resolution
          FaceNormal FaceRight FaceUp UVMin UVMax).Positions.length = (Resolution + 1) ^ 3) ∧
      (x ≤ Resolution → y ≤ Resolution → z ≤ Resolution →
        (PlanetDensityGenerator.GenerateDensityField cfg Resolution
          FaceNormal FaceRight FaceUp UVMin UVMax).Positions[(z * (Resolution + 1) + y) *
            (Resolution + 1) + x]? =
          some (PlanetDensityGenerator.GetProjectedPosition cfg x y z Resolution
            FaceNormal FaceRight FaceUp UVMin UVMax) ∧
        (PlanetDensityGenerator.GenerateDensityField cfg Resolution
          FaceNormal FaceRight FaceUp UVMin UVMax).Densities[(z * (Resolution + 1) + y) *
            (Resolution + 1) + x]? =
          some (PlanetDensityGenerator.SampleDensity cfg
            (PlanetDensityGenerator.GetProjectedPosition cfg x y z Resolution
              FaceNormal FaceRight FaceUp UVMin UVMax))) := by
  intro cfg x y z Resolution FaceNormal FaceRight FaceUp UVMin UVMax
  have hxlen : ∀ {γ : Type} (g : ℕ → γ) (n : ℕ),
      (seqAppend n fun xx => [g xx]).length = n := by
    intro γ g n
    rw [seqAppend_length (fun xx => [g xx]) 1 (fun i => rfl) n]
    omega
  have hylen : ∀ {γ : Type} (g : ℕ → ℕ → γ) (n : ℕ),
      (seqAppend n fun yy => seqAppend n fun xx => [g xx yy]).length = n * n := by
    intro γ g n
    exact seqAppend_length _ n (fun i => hxlen (fun xx => g xx i) n) n
  have hzlen : ∀ {γ : Type} (q : ℕ → ℕ → ℕ → γ) (n : ℕ),
      (seqAppend n fun zz => seqAppend n fun yy =>
        seqAppend n fun xx => [q xx yy zz]).length = n ^ 3 := by
    intro γ q n
    rw [seqAppend_length _ (n * n) (fun i => hylen (fun xx yy => q xx yy i) n) n]
    ring
  have hidx : ∀ {γ : Type} (q : ℕ → ℕ → ℕ → γ),
      x ≤ Resolution → y ≤ Resolution → z ≤ Resolution →
      (seqAppend (Resolution + 1) fun zz => seqAppend (Resolution + 1) fun yy =>
        seqAppend (Resolution + 1) fun xx =>
          [q xx yy zz])[(z * (Resolution + 1) + y) * (Resolution + 1) + x]? =
        some (q x y z) := by
    intro γ q hxr hyr hzr
    set n := Resolution + 1 with hn
    have hxn : x < n := by omega
    have hyn : y < n := by omega
    have hzn : z < n := by omega
    have hyx : y * n + x < n * n := by
      calc y * n + x < y * n + n := by omega
        _ = (y + 1) * n := by ring
        _ ≤ n * n := Nat.mul_le_mul_right n (by omega)
    have e1 : (z * n + y) * n + x = z * (n * n) + (y * n + x) := by ring
    rw [e1,
      seqAppend_getElem _ (n * n)
        (fun i => hylen (fun xx yy => q xx yy i) n) n z (y * n + x) hzn hyx,
      seqAppend_getElem _ n
        (fun i => hxlen (fun xx => q xx i z) n) n y x hyn hxn]
    have h3 := seqAppend_getElem (fun xx => [q xx y z]) 1 (fun i => rfl) n x 0 hxn (by omega)
    simp only [Nat.mul_one, Nat.add_zero] at h3
    rw [h3]
    rfl
  refine ⟨PlanetDensityGenerator.GetProjectedPosition_eq_spec cfg x y z Resolution
      FaceNormal FaceRight FaceUp UVMin UVMax, ?_, ?_, ?_⟩
  · intro hmem hmin1a hmin1b hmax1a hmax1b hmin2a hmin2b hmax2a hmax2b
      hxr hyr hres h2z hRad
    have hResPos : (0 : ℝ) < (Resolution : ℝ) := by exact_mod_cast hres
    have hresr : (Resolution : ℝ) = 2 * (z : ℝ) := by
      have := congrArg (Nat.cast : ℕ → ℝ) h2z
      push_cast at this
      linarith
    have halt : ((z : ℝ) - (Resolution : ℝ) / 2) = 0 := by
      rw [hresr]
      ring
    have htx0 : 0 ≤ (x : ℝ) / (Resolution : ℝ) := by positivity
    have htx1 : (x : ℝ) / (Resolution : ℝ) ≤ 1 := by
      rw [div_le_one hResPos]
      exact_mod_cast hxr
    have hty0 : 0 ≤ (y : ℝ) / (Resolution : ℝ) := by positivity
    have hty1 : (y : ℝ) / (Resolution : ℝ) ≤ 1 := by
      rw [div_le_one hResPos]
      exact_mod_cast hyr
    rw [PlanetDensityGenerator.GetProjectedPosition_eq_spec,
      PlanetDensityGenerator.specProjectedPosition, halt, zero_mul, add_zero]
    exact size_smul_of_sizeSq_one cfg.PlanetRadius hRad _
      (sizeSq_spherified_face_point FaceNormal FaceRight FaceUp hmem _ _
        (lerpUE_sq_le_one UVMin.1 UVMax.1 _ hmin1a hmin1b hmax1a hmax1b htx0 htx1)
        (lerpUE_sq_le_one UVMin.2 UVMax.2 _ hmin2a hmin2b hmax2a hmax2b hty0 hty1))
  · exact ⟨hzlen _ (Resolution + 1), hzlen _ (Resolution + 1)⟩
  · intro hxr hyr hzr
    exact ⟨hidx _ hxr hyr hzr, hidx _ hxr hyr hzr⟩

/-- Witness for C5 at a concrete configuration: radius 2, resolution 2,
mid layer z = 1, +X face, full UV window. -/
theorem c5_projected_grid_witness :
    V3.size (PlanetDensityGenerator.GetProjectedPosition exampleConfig 0 0 1 2
      ⟨1, 0, 0⟩ ⟨0, 1, 0⟩ ⟨0, 0, 1⟩ (-1, -1) (1, 1)) = exampleConfig.PlanetRadius ∧
    (PlanetDensityGenerator.GenerateDensityField exampleConfig 2
      ⟨1, 0, 0⟩ ⟨0, 1, 0⟩ ⟨0, 0, 1⟩ (-1, -1) (1, 1)).Positions.length = 27 ∧
    (PlanetDensityGenerator.GenerateDensityField exampleConfig 2
      ⟨1, 0, 0⟩ ⟨0, 1, 0⟩ ⟨0, 0, 1⟩ (-1, -1) (1, 1)).Positions[9]? =
      some (PlanetDensityGenerator.GetProjectedPosition exampleConfig 0 0 1 2
        ⟨1, 0, 0⟩ ⟨0, 1, 0⟩ ⟨0, 0, 1⟩ (-1, -1) (1, 1)) := by
  have h := c5_projected_grid exampleConfig 0 0 1 2
    ⟨1, 0, 0⟩ ⟨0, 1, 0⟩ ⟨0, 0, 1⟩ (-1, -1) (1, 1)
  refine ⟨?_, ?_, ?_⟩
  · exact h.2.1 (by simp [stdFaceBases]) (by norm_num) (by norm_num) (by norm_num)
      (by norm_num) (by norm_num) (by norm_num) (by norm_num) (by norm_num)
      (by norm_num) (by norm_num) (by norm_num) (by norm_num)
      (by norm_num [exampleConfig])
  · have hl := h.2.2.1.2
    norm_num at hl
    exact hl
  · have hp := (h.2.2.2 (by norm_num) (by norm_num) (by norm_num)).1
    norm_num at hp
    exact hp
